import Mathlib

/-!
Verification of the md2d molecular-dynamics engine
(`src/lab/md2d/models/engine/md2d.js`) against its specification.

The engine state is embedded shallowly: the parallel typed arrays become
total functions `ℕ → ℚ` (JS double values are modelled by exact rationals;
IEEE NaN/Infinity special values are not representable, which is noted at
each claim they could touch), the closure variables become fields of an
`Engine` structure, and a method that can `throw` returns the error message
next to the post-state (JS exceptions do not roll back earlier mutations
of the closure state, so the post-state is returned even on error).

Modules required by md2d.js that are not part of the repository snapshot
(`./potentials`, `./cell-list`, `./neighbor-list`, `./pressure-buffers`,
`./constants`, `./math`, and the JS builtin `Math.sqrt`) are modelled from
the spec as parameters in an `Ext` bundle or as minimal accumulators; each
such definition carries a doc comment saying so.
-/

namespace MD2D

/-- Sum `f 0 + f 1 + ... + f (n-1)`, in the accumulation order of the JS
`for` loops of the source. -/
def sumOver (n : ℕ) (f : ℕ → ℚ) : ℚ :=
  match n with
  | 0 => 0
  | m + 1 => sumOver m f + f m

/-- Run the loop body `g i` for `i = 0, 1, ..., n-1`, in that order
(the shape of the JS `for (i = 0; i < n; i++)` loops whose body mutates
the engine). -/
def iterOver (n : ℕ) (g : ℕ → α → α) (s : α) : α :=
  match n with
  | 0 => s
  | m + 1 => g m (iterOver m g s)

/-- JS loop `while (x < bound) x += w;` (`w > 0`; for `w ≤ 0` the JS loop
would not terminate, so the model returns `x` unchanged in that unreachable
case). -/
def foldUp (w bound x : ℚ) : ℚ :=
  if h : 0 < w ∧ x < bound then foldUp w bound (x + w) else x
  termination_by (⌈(bound - x) / w⌉).toNat
  decreasing_by
    have hw := h.1
    have hx := h.2
    have h1 : (bound - (x + w)) / w = (bound - x) / w - 1 := by
      field_simp
      ring
    have h2 : (0 : ℚ) < (bound - x) / w := div_pos (by linarith) hw
    have h3 : (0 : ℤ) < ⌈(bound - x) / w⌉ := by positivity
    have h4 : ⌈(bound - (x + w)) / w⌉ = ⌈(bound - x) / w⌉ - 1 := by
      rw [h1]
      exact Int.ceil_sub_one _
    omega

/-- JS loop `while (x > bound) x -= w;` (`w > 0`). -/
def foldDown (w bound x : ℚ) : ℚ :=
  if h : 0 < w ∧ bound < x then foldDown w bound (x - w) else x
  termination_by (⌈(x - bound) / w⌉).toNat
  decreasing_by
    have hw := h.1
    have hx := h.2
    have h1 : (x - w - bound) / w = (x - bound) / w - 1 := by
      field_simp
      ring
    have h2 : (0 : ℚ) < (x - bound) / w := div_pos (by linarith) hw
    have h3 : (0 : ℤ) < ⌈(x - bound) / w⌉ := by positivity
    have h4 : ⌈(x - w - bound) / w⌉ = ⌈(x - bound) / w⌉ - 1 := by
      rw [h1]
      exact Int.ceil_sub_one _
    omega

/-- A JS number argument that may be `NaN`, `Infinity` or `-Infinity`
(needed where the source tests those values explicitly). -/
inductive JSNum where
  | nan : JSNum
  | inf : JSNum
  | ninf : JSNum
  | num : ℚ → JSNum
deriving DecidableEq

/-- The engine's closure state (md2d.js, `createEngine`).  Typed arrays are
total functions; `N`, `N_obstacles`, ... bound the live prefix.  JS
`undefined` initial values of numeric closure variables are modelled as `0`
(`T_target`, `viscosity`, `dt`), and `gravitationalField`, which the source
keeps as `false` or a nonzero number, is an `Option ℚ`.  An obstacle mass of
`Infinity` is modelled by the flag `obstacleMassInf`.  `tempWindow` and
`pressureElapsed` stand for the states of the windowed-average helper and of
the pressure-buffers module (neither module is in the snapshot; both are
modelled from the spec). -/
structure Engine where
  sizeHasBeenInitialized : Bool := false
  atomsHaveBeenCreated : Bool := false
  elementsHaveBeenCreated : Bool := false
  useThermostat : Bool := false
  temperatureChangeInProgress : Bool := false
  hasChargedAtoms : Bool := false
  chargedAtomsList : List ℕ := []
  vdwLinesR : ℚ := 167 / 100
  grav : Option ℚ := none
  T_target : ℚ := 0
  tempWindow : List ℚ := []
  sizeX : ℚ := 10
  sizeY : ℚ := 10
  viscosity : ℚ := 0
  time : ℚ := 0
  dt : ℚ := 0
  dt_sq : ℚ := 0
  T : ℚ := 0
  -- atoms
  N : ℕ := 0
  radius : ℕ → ℚ := fun _ => 0
  px : ℕ → ℚ := fun _ => 0
  py : ℕ → ℚ := fun _ => 0
  x : ℕ → ℚ := fun _ => 0
  y : ℕ → ℚ := fun _ => 0
  vx : ℕ → ℚ := fun _ => 0
  vy : ℕ → ℚ := fun _ => 0
  speed : ℕ → ℚ := fun _ => 0
  ax : ℕ → ℚ := fun _ => 0
  ay : ℕ → ℚ := fun _ => 0
  charge : ℕ → ℚ := fun _ => 0
  friction : ℕ → ℚ := fun _ => 0
  element : ℕ → ℕ := fun _ => 0
  pinned : ℕ → Bool := fun _ => false
  mass : ℕ → ℚ := fun _ => 0
  -- elements
  N_elements : ℕ := 0
  elementMass : ℕ → ℚ := fun _ => 0
  elementEpsilon : ℕ → ℚ := fun _ => 0
  elementSigma : ℕ → ℚ := fun _ => 0
  elementRadius : ℕ → ℚ := fun _ => 0
  elementUsed : ℕ → Bool := fun _ => false
  -- radial bonds (only what the settled claims consult)
  N_radialBonds : ℕ := 0
  radialBondMatrix : ℕ → ℕ → Bool := fun _ _ => false
  -- obstacles
  N_obstacles : ℕ := 0
  obstacleX : ℕ → ℚ := fun _ => 0
  obstacleY : ℕ → ℚ := fun _ => 0
  obstacleWidth : ℕ → ℚ := fun _ => 0
  obstacleHeight : ℕ → ℚ := fun _ => 0
  obstacleVX : ℕ → ℚ := fun _ => 0
  obstacleVY : ℕ → ℚ := fun _ => 0
  obstacleExtFX : ℕ → ℚ := fun _ => 0
  obstacleExtFY : ℕ → ℚ := fun _ => 0
  obstacleFriction : ℕ → ℚ := fun _ => 0
  obstacleMass : ℕ → ℚ := fun _ => 0
  obstacleMassInf : ℕ → Bool := fun _ => false
  obstacleWestProbe : ℕ → Bool := fun _ => false
  obstacleNorthProbe : ℕ → Bool := fun _ => false
  obstacleEastProbe : ℕ → Bool := fun _ => false
  obstacleSouthProbe : ℕ → Bool := fun _ => false
  obstacleWProbeValue : ℕ → ℚ := fun _ => 0
  obstacleNProbeValue : ℕ → ℚ := fun _ => 0
  obstacleEProbeValue : ℕ → ℚ := fun _ => 0
  obstacleSProbeValue : ℕ → ℚ := fun _ => 0
  obstacleXPrev : ℕ → ℚ := fun _ => 0
  obstacleYPrev : ℕ → ℚ := fun _ => 0
  -- spring forces
  N_springForces : ℕ := 0
  springForceAtomIndex : ℕ → ℕ := fun _ => 0
  springForceX : ℕ → ℚ := fun _ => 0
  springForceY : ℕ → ℚ := fun _ => 0
  springForceStrength : ℕ → ℚ := fun _ => 0
  -- VdW pairs (uint16 arrays plus count; `vdwCap` is the allocated length)
  vdwCount : ℕ := 0
  vdwCap : ℕ := 0
  vdwAtom1 : ℕ → ℕ := fun _ => 0
  vdwAtom2 : ℕ → ℕ := fun _ => 0
  -- Modelled from the spec: total time the pressure-buffers module has been
  -- advanced by (`pressureBuffers.updateBuffers(duration)`); the module
  -- itself (pressure-buffers.js) is not in the snapshot.
  pressureElapsed : ℚ := 0

/-- The fresh engine returned by `createEngine()` before any call. -/
def engine0 : Engine := {}

-- ####################################################################
-- Lifecycle and validation (md2d.js lines 87-99, 1627-1636, 1780-1832)
-- ####################################################################

/-- `validateTemperature(t)` (md2d.js:87).  `parseFloat` of a number is the
number itself; the three checks are modelled on `JSNum`. -/
def validateTemperature (t : JSNum) : Option String :=
  match t with
  | JSNum.nan => some ("md2d: requested temperature could not be understood.")
  | JSNum.ninf => some ("md2d: requested temperature was less than zero")
  | JSNum.inf => some ("md2d: requested temperature was Infinity!")
  | JSNum.num q =>
      if q < 0 then some ("md2d: requested temperature was less than zero")
      else none

/-- `engine.setTargetTemperature(v)` (md2d.js:1617): validate, then store. -/
def setTargetTemperature (s : Engine) (t : JSNum) : Engine × Option String :=
  match validateTemperature t with
  | some msg => (s, some msg)
  | none =>
      match t with
      | JSNum.num q => ({ s with T_target := q }, none)
      | _ => (s, none)

/-- `engine.setSize(v)` (md2d.js:1627).  JS `(v[0] && v[0] > 0) ? v[0] : 10`
keeps the coordinate only when it is a truthy number greater than zero. -/
def setSize (s : Engine) (v : ℚ × ℚ) : Engine × Option String :=
  if s.sizeHasBeenInitialized then
    (s, some ("The molecular model size has already been set, and cannot be reset."))
  else
    let width := if 0 < v.1 then v.1 else 10
    let height := if 0 < v.2 then v.2 else 10
    ({ s with sizeX := width, sizeY := height }, none)

/-- `engine.getSize()` (md2d.js:1638). -/
def getSize (s : Engine) : ℚ × ℚ := (s.sizeX, s.sizeY)

/-- `engine.createAtomsArray(num)` (md2d.js:1780).  The `num` argument may be
absent (`undefined`) or any JS number; mutations the source performs before a
`throw` (setting `atomsHaveBeenCreated` and `sizeHasBeenInitialized`) are kept
in the returned state. -/
def createAtomsArray (s : Engine) (num : Option ℚ) : Engine × Option String :=
  if ¬ s.elementsHaveBeenCreated then
    (s, some ("md2d: createAtoms was called before setElements."))
  else if s.atomsHaveBeenCreated then
    (s, some ("md2d: createAtoms was called even though the particles have already been created for this model instance."))
  else
    let s1 := { s with atomsHaveBeenCreated := true, sizeHasBeenInitialized := true }
    match num with
    | none =>
        (s1, some ("md2d: createAtoms was called without the required num option specifying the number of atoms to create."))
    | some q =>
        if q ≠ (⌊q⌋ : ℚ) then
          (s1, some ("md2d: createAtoms was passed a non-integral num option."))
        else if q < 1 then
          (s1, some ("md2d: createAtoms was passed a num option less than the minimum allowable value N_MIN = 1."))
        else if 1000 < q then
          (s1, some ("md2d: createAtoms was passed an N option greater than the maximum allowable value N_MAX = 1000."))
        else
          ({ s1 with
              radius := fun _ => 0, px := fun _ => 0, py := fun _ => 0
              x := fun _ => 0, y := fun _ => 0, vx := fun _ => 0, vy := fun _ => 0
              speed := fun _ => 0, ax := fun _ => 0, ay := fun _ => 0
              charge := fun _ => 0, friction := fun _ => 0
              element := fun _ => 0, pinned := fun _ => false, mass := fun _ => 0
              N := 0 }, none)

-- ####################################################################
-- Spring forces (md2d.js lines 1966-1996)
-- ####################################################################

/-- `engine.addSpringForce(atomIndex, x, y, strength)` (md2d.js:1966):
writes the entry at index `N_springForces`, increments the count and returns
the old count (array allocation/growth is absorbed by the total functions). -/
def addSpringForce (s : Engine) (atomIndex : ℕ) (x y strength : ℚ) : Engine × ℕ :=
  ({ s with
      springForceAtomIndex := Function.update s.springForceAtomIndex s.N_springForces atomIndex
      springForceX := Function.update s.springForceX s.N_springForces x
      springForceY := Function.update s.springForceY s.N_springForces y
      springForceStrength := Function.update s.springForceStrength s.N_springForces strength
      N_springForces := s.N_springForces + 1 },
   s.N_springForces)

/-- `engine.removeSpringForce(i)` (md2d.js:1989): `if (i >= N_springForces)
return; N_springForces--;` — nothing but the count changes. -/
def removeSpringForce (s : Engine) (i : ℕ) : Engine :=
  if s.N_springForces ≤ i then s
  else { s with N_springForces := s.N_springForces - 1 }

/-- The per-spring data rows the force loop `updateSpringForces`
(md2d.js:1340) iterates: entries `0 ≤ i < N_springForces` in order. -/
def appliedSpringData (s : Engine) : List (ℕ × ℚ × ℚ × ℚ) :=
  (List.range s.N_springForces).map fun k =>
    (s.springForceAtomIndex k, s.springForceX k, s.springForceY k, s.springForceStrength k)

-- ####################################################################
-- Wall collisions (md2d.js lines 864-947)
-- ####################################################################

/-- `foldUp` unfolding: one loop iteration. -/
theorem foldUp_step (w bound x : ℚ) (h1 : 0 < w) (h2 : x < bound) :
    foldUp w bound x = foldUp w bound (x + w) := by
  rw [foldUp]
  rw [dif_pos ⟨h1, h2⟩]

/-- `foldUp` unfolding: the loop exits. -/
theorem foldUp_stop (w bound x : ℚ) (h : ¬(0 < w ∧ x < bound)) :
    foldUp w bound x = x := by
  rw [foldUp]
  rw [dif_neg h]

/-- `foldDown` unfolding: one loop iteration. -/
theorem foldDown_step (w bound x : ℚ) (h1 : 0 < w) (h2 : bound < x) :
    foldDown w bound x = foldDown w bound (x - w) := by
  rw [foldDown]
  rw [dif_pos ⟨h1, h2⟩]

/-- `foldDown` unfolding: the loop exits. -/
theorem foldDown_stop (w bound x : ℚ) (h : ¬(0 < w ∧ bound < x)) :
    foldDown w bound x = x := by
  rw [foldDown]
  rw [dif_neg h]

/-- `bounceParticleOffWalls(i)` (md2d.js:905): elastic reflection of atom `i`
off the four domain walls, each overshoot first folded by a whole number of
domain widths (resp. heights). -/
def bounceParticleOffWalls (s : Engine) (i : ℕ) : Engine :=
  let r := s.radius i
  let leftwall := r
  let bottomwall := r
  let width := s.sizeX
  let height := s.sizeY
  let rightwall := width - r
  let topwall := height - r
  let s1 :=
    if s.x i < leftwall then
      let xf := foldUp width (leftwall - width) (s.x i)
      { s with x := Function.update s.x i (leftwall + (leftwall - xf))
               vx := Function.update s.vx i (-(s.vx i))
               px := Function.update s.px i (-(s.px i)) }
    else if rightwall < s.x i then
      let xf := foldDown width (rightwall + width) (s.x i)
      { s with x := Function.update s.x i (rightwall - (xf - rightwall))
               vx := Function.update s.vx i (-(s.vx i))
               px := Function.update s.px i (-(s.px i)) }
    else s
  if s1.y i < bottomwall then
    let yf := foldUp height (bottomwall - height) (s1.y i)
    { s1 with y := Function.update s1.y i (bottomwall + (bottomwall - yf))
              vy := Function.update s1.vy i (-(s1.vy i))
              py := Function.update s1.py i (-(s1.py i)) }
  else if topwall < s1.y i then
    let yf := foldDown height (topwall + height) (s1.y i)
    { s1 with y := Function.update s1.y i (topwall - (yf - topwall))
              vy := Function.update s1.vy i (-(s1.vy i))
              py := Function.update s1.py i (-(s1.py i)) }
  else s1

/-- `bounceObstacleOffWalls(i)` (md2d.js:864).  NOTE: the source's top-wall
branch folds the overshoot by the domain WIDTH, not the height
(`while (obstacleY[i] > topwall + width) obstacleY[i] -= width;`), unlike its
own bottom-wall branch and unlike `bounceParticleOffWalls`; the model keeps
that behavior. -/
def bounceObstacleOffWalls (s : Engine) (i : ℕ) : Engine :=
  let leftwall : ℚ := 0
  let bottomwall : ℚ := 0
  let width := s.sizeX
  let height := s.sizeY
  let rightwall := width - s.obstacleWidth i
  let topwall := height - s.obstacleHeight i
  let s1 :=
    if s.obstacleX i < leftwall then
      let xf := foldUp width (leftwall - width) (s.obstacleX i)
      { s with obstacleX := Function.update s.obstacleX i (leftwall + (leftwall - xf))
               obstacleVX := Function.update s.obstacleVX i (-(s.obstacleVX i)) }
    else if rightwall < s.obstacleX i then
      let xf := foldDown width (rightwall + width) (s.obstacleX i)
      { s with obstacleX := Function.update s.obstacleX i (rightwall - (xf - rightwall))
               obstacleVX := Function.update s.obstacleVX i (-(s.obstacleVX i)) }
    else s
  if s1.obstacleY i < bottomwall then
    let yf := foldUp height (bottomwall - height) (s1.obstacleY i)
    { s1 with obstacleY := Function.update s1.obstacleY i (bottomwall + (bottomwall - yf))
              obstacleVY := Function.update s1.obstacleVY i (-(s1.obstacleVY i)) }
  else if topwall < s1.obstacleY i then
    let yf := foldDown width (topwall + width) (s1.obstacleY i)
    { s1 with obstacleY := Function.update s1.obstacleY i (topwall - (yf - topwall))
              obstacleVY := Function.update s1.obstacleVY i (-(s1.obstacleVY i)) }
  else s1

/-- Modelled from the spec: claim C8's description of `bounceObstacleOffWalls`
("a coordinate exceeding the top wall is folded by an integer number of
domain HEIGHTS, then reflected, with vy negated").  Identical to
`bounceObstacleOffWalls` except the top-wall fold uses the height, for
comparison with the source's behavior. -/
def bounceObstacleOffWallsSpec (s : Engine) (i : ℕ) : Engine :=
  let leftwall : ℚ := 0
  let bottomwall : ℚ := 0
  let width := s.sizeX
  let height := s.sizeY
  let rightwall := width - s.obstacleWidth i
  let topwall := height - s.obstacleHeight i
  let s1 :=
    if s.obstacleX i < leftwall then
      let xf := foldUp width (leftwall - width) (s.obstacleX i)
      { s with obstacleX := Function.update s.obstacleX i (leftwall + (leftwall - xf))
               obstacleVX := Function.update s.obstacleVX i (-(s.obstacleVX i)) }
    else if rightwall < s.obstacleX i then
      let xf := foldDown width (rightwall + width) (s.obstacleX i)
      { s with obstacleX := Function.update s.obstacleX i (rightwall - (xf - rightwall))
               obstacleVX := Function.update s.obstacleVX i (-(s.obstacleVX i)) }
    else s
  if s1.obstacleY i < bottomwall then
    let yf := foldUp height (bottomwall - height) (s1.obstacleY i)
    { s1 with obstacleY := Function.update s1.obstacleY i (bottomwall + (bottomwall - yf))
              obstacleVY := Function.update s1.obstacleVY i (-(s1.obstacleVY i)) }
  else if topwall < s1.obstacleY i then
    let yf := foldDown height (topwall + height) (s1.obstacleY i)
    { s1 with obstacleY := Function.update s1.obstacleY i (topwall - (yf - topwall))
              obstacleVY := Function.update s1.obstacleVY i (-(s1.obstacleVY i)) }
  else s1

/-- Concrete state for claim C8: domain 2 nm x 10 nm, one 1 x 1 obstacle
whose position update left it at `y = 12`, above the top wall
(`topwall = 10 - 1 = 9`), moving up. -/
def engineC8 : Engine :=
  { sizeX := 2, sizeY := 10, N_obstacles := 1
    obstacleWidth := fun _ => 1, obstacleHeight := fun _ => 1
    obstacleX := fun _ => 1/2, obstacleY := fun _ => 12
    obstacleVY := fun _ => 1 }

/-- C8: the code disagrees with the claim on `engineC8`.  The source folds
the top-wall overshoot by the domain width 2 (`12 → 10`) and reflects to
`y = 8`; folding by the domain height 10, as the claim states and as the
bottom wall and `bounceParticleOffWalls` do, would reflect `12` to `y = 6`.
Velocity is negated either way. -/
theorem C8_top_wall_folds_by_width :
    (bounceObstacleOffWalls engineC8 0).obstacleY 0 = 8 ∧
    (bounceObstacleOffWallsSpec engineC8 0).obstacleY 0 = 6 ∧
    (bounceObstacleOffWalls engineC8 0).obstacleVY 0 = -1 ∧
    (bounceObstacleOffWalls engineC8 0).obstacleY 0 ≠
      (bounceObstacleOffWallsSpec engineC8 0).obstacleY 0 := by
  have e1 : foldDown 2 11 12 = 10 := by
    rw [foldDown_step 2 11 12 (by norm_num) (by norm_num)]
    rw [foldDown_stop 2 11 (12 - 2) (by norm_num)]
    norm_num
  have e2 : foldDown 10 19 12 = 12 := by
    rw [foldDown_stop 10 19 12 (by norm_num)]
  refine ⟨?_, ?_, ?_, ?_⟩
  · simp only [bounceObstacleOffWalls, engineC8]
    norm_num [e1]
  · simp only [bounceObstacleOffWallsSpec, engineC8]
    norm_num [e2]
  · simp only [bounceObstacleOffWalls, engineC8]
    norm_num [e1]
  · simp only [bounceObstacleOffWalls, bounceObstacleOffWallsSpec, engineC8]
    norm_num [e1, e2]

-- ####################################################################
-- Claims C3, C9, C10
-- ####################################################################

/-- A state in which `initializeElements` has completed (the flag it sets),
used as the concrete pre-state of counterexamples. -/
def engineElems : Engine := { elementsHaveBeenCreated := true }

/-- C3 counterexample: on `createAtomsArray` with the invalid count `0` the
engine raises an error but does NOT leave the state unchanged: it has already
set `atomsHaveBeenCreated` and `sizeHasBeenInitialized`, observably through
the public API — `setSize`, which succeeded before the failing call, now
fails. -/
theorem C3_counterexample_flags_mutated :
    (createAtomsArray engineElems (some 0)).2.isSome = true ∧
    engineElems.sizeHasBeenInitialized = false ∧
    (createAtomsArray engineElems (some 0)).1.sizeHasBeenInitialized = true ∧
    (createAtomsArray engineElems (some 0)).1.atomsHaveBeenCreated = true ∧
    (setSize engineElems (5, 5)).2 = none ∧
    (setSize (createAtomsArray engineElems (some 0)).1 (5, 5)).2.isSome = true := by
  decide

/-- For a good element/atom state, `createAtomsArray` first sets the two
lifecycle flags and only then validates the count. -/
theorem createAtomsArray_badnum (s : Engine) (num : Option ℚ)
    (h1 : s.elementsHaveBeenCreated = true) (h2 : s.atomsHaveBeenCreated = false)
    (hbad : num = none ∨ ∃ q0, num = some q0 ∧ (q0 ≠ (⌊q0⌋ : ℚ) ∨ q0 < 1 ∨ 1000 < q0)) :
    (createAtomsArray s num).1 =
      { s with atomsHaveBeenCreated := true, sizeHasBeenInitialized := true } ∧
    (createAtomsArray s num).2.isSome = true := by
  unfold createAtomsArray
  rw [if_neg (by simp [h1]), if_neg (by simp [h2])]
  rcases num with _ | q
  · exact ⟨rfl, rfl⟩
  all_goals dsimp only
  · by_cases hni : q = (⌊q⌋ : ℚ)
    · by_cases hlt : q < 1
      · rw [if_neg (by simpa using hni), if_pos hlt]
        exact ⟨rfl, rfl⟩
      · by_cases hgt : 1000 < q
        · rw [if_neg (by simpa using hni), if_neg hlt, if_pos hgt]
          exact ⟨rfl, rfl⟩
        · exfalso
          rcases hbad with hn | ⟨q0, hq0, hc⟩
          · exact Option.noConfusion hn
          · rcases Option.some.inj hq0 with rfl
            rcases hc with hc | hc | hc
            · exact hc hni
            · exact hlt hc
            · exact hgt hc
    · rw [if_pos (by simpa using hni)]
      exact ⟨rfl, rfl⟩

/-- C3 (amended): the setup-ordering violations (atoms before elements,
atoms created twice) and an invalid temperature raise a descriptive error and
leave the state unchanged; but a `createAtomsArray` call with a missing,
non-integral or out-of-range count raises its error only after setting
`atomsHaveBeenCreated` and `sizeHasBeenInitialized`, so those two flags (and
everything observable through them) do change. -/
theorem C3_contract_violations :
    ∀ (s : Engine) (num : Option ℚ) (t : JSNum) (q : ℚ),
      (s.elementsHaveBeenCreated = false →
        createAtomsArray s num = (s, some ("md2d: createAtoms was called before setElements."))) ∧
      (s.elementsHaveBeenCreated = true → s.atomsHaveBeenCreated = true →
        (createAtomsArray s num).1 = s ∧ (createAtomsArray s num).2.isSome = true) ∧
      (validateTemperature t ≠ none →
        (setTargetTemperature s t).1 = s ∧ (setTargetTemperature s t).2.isSome = true) ∧
      (validateTemperature (JSNum.num q) ≠ none ↔ q < 0) ∧
      validateTemperature JSNum.nan ≠ none ∧
      validateTemperature JSNum.inf ≠ none ∧
      validateTemperature JSNum.ninf ≠ none ∧
      (s.elementsHaveBeenCreated = true → s.atomsHaveBeenCreated = false →
        (num = none ∨ (∃ q0, num = some q0 ∧ (q0 ≠ (⌊q0⌋ : ℚ) ∨ q0 < 1 ∨ 1000 < q0))) →
        (createAtomsArray s num).2.isSome = true ∧
        (createAtomsArray s num).1 =
          { s with atomsHaveBeenCreated := true, sizeHasBeenInitialized := true }) := by
  intro s num t q
  refine ⟨?_, ?_, ?_, ?_, ?_, ?_, ?_, ?_⟩
  · intro h
    unfold createAtomsArray
    rw [if_pos (by simp [h])]
  · intro h1 h2
    unfold createAtomsArray
    rw [if_neg (by simp [h1]), if_pos (by simp [h2])]
    exact ⟨rfl, rfl⟩
  · intro h
    match ht : validateTemperature t with
    | some msg =>
        unfold setTargetTemperature
        rw [ht]
        exact ⟨rfl, rfl⟩
    | none => exact absurd ht h
  · constructor
    · intro h
      by_contra hq
      exact h (by simp [validateTemperature, not_lt.mp hq])
    · intro h
      simp [validateTemperature, h]
  · simp [validateTemperature]
  · simp [validateTemperature]
  · simp [validateTemperature]
  · intro h1 h2 hbad
    obtain ⟨ha, hb⟩ := createAtomsArray_badnum s num h1 h2 hbad
    exact ⟨hb, ha⟩

/-- C9 counterexample: a second `setSize` call before `createAtomsArray` has
ever been called does NOT raise an error — it succeeds and overwrites the
stored size. -/
theorem C9_counterexample_second_setSize_succeeds :
    (setSize (setSize engine0 (5, 5)).1 (7, 7)).2 = none ∧
    getSize (setSize (setSize engine0 (5, 5)).1 (7, 7)).1 = (7, 7) ∧
    getSize (setSize engine0 (5, 5)).1 = (5, 5) := by
  decide

/-- C9 (amended): `setSize` raises (and leaves the size unchanged) exactly
when `sizeHasBeenInitialized` is set, and that flag is set by
`createAtomsArray` — never by `setSize` itself.  Before `createAtomsArray`,
any number of `setSize` calls succeed, each overwriting the stored size. -/
theorem C9_setSize_twice :
    ∀ (s : Engine) (v w : ℚ × ℚ) (num : Option ℚ),
      (s.sizeHasBeenInitialized = false →
        (setSize (setSize s v).1 w).2 = none ∧
        getSize (setSize (setSize s v).1 w).1 =
          ((if 0 < w.1 then w.1 else 10), (if 0 < w.2 then w.2 else 10))) ∧
      (s.sizeHasBeenInitialized = true →
        (setSize s v).1 = s ∧ (setSize s v).2.isSome = true) ∧
      (setSize s v).1.sizeHasBeenInitialized = s.sizeHasBeenInitialized ∧
      (s.elementsHaveBeenCreated = true → s.atomsHaveBeenCreated = false →
        (createAtomsArray s num).1.sizeHasBeenInitialized = true) := by
  intro s v w num
  refine ⟨?_, ?_, ?_, ?_⟩
  · intro h
    constructor
    · simp [setSize, h]
    · simp [setSize, getSize, h]
  · intro h
    unfold setSize
    rw [if_pos (by simp [h])]
    exact ⟨rfl, rfl⟩
  · by_cases h : s.sizeHasBeenInitialized <;> simp [setSize, h]
  · intro h1 h2
    unfold createAtomsArray
    rw [if_neg (by simp [h1]), if_neg (by simp [h2])]
    cases num with
    | none => rfl
    | some q =>
        dsimp only
        split_ifs <;> rfl

/-- C10: `removeSpringForce(i)` with `i < N_springForces` only decrements the
count: the stored entries (those of spring `i` included) are untouched, the
applied springs become exactly the old ones with the LAST one dropped, and a
spring `i` below the top index is still applied with its old data (so the
spring that stops being applied is the highest-index one, not the one
requested); for `i ≥ N_springForces` the call changes nothing. -/
theorem C10_removeSpringForce :
    ∀ (s : Engine) (i : ℕ),
      (s.N_springForces ≤ i → removeSpringForce s i = s) ∧
      (i < s.N_springForces →
        removeSpringForce s i = { s with N_springForces := s.N_springForces - 1 } ∧
        appliedSpringData (removeSpringForce s i) = (appliedSpringData s).dropLast ∧
        (removeSpringForce s i).springForceAtomIndex i = s.springForceAtomIndex i ∧
        (removeSpringForce s i).springForceX i = s.springForceX i ∧
        (removeSpringForce s i).springForceY i = s.springForceY i ∧
        (removeSpringForce s i).springForceStrength i = s.springForceStrength i ∧
        (i < s.N_springForces - 1 →
          (appliedSpringData (removeSpringForce s i))[i]? =
            some (s.springForceAtomIndex i, s.springForceX i, s.springForceY i,
                  s.springForceStrength i))) := by
  intro s i
  constructor
  · intro h
    simp [removeSpringForce, h]
  · intro h
    have hne : ¬ s.N_springForces ≤ i := not_le.mpr h
    refine ⟨by simp [removeSpringForce, hne], ?_, ?_, ?_, ?_, ?_, ?_⟩
    · simp only [removeSpringForce, hne, if_neg (by omega : ¬ s.N_springForces ≤ i)]
      show appliedSpringData { s with N_springForces := s.N_springForces - 1 } = _
      unfold appliedSpringData
      simp only
      obtain ⟨m, hm⟩ : ∃ m, s.N_springForces = m + 1 := ⟨s.N_springForces - 1, by omega⟩
      rw [hm]
      simp [List.range_succ]
    · simp [removeSpringForce, hne]
    · simp [removeSpringForce, hne]
    · simp [removeSpringForce, hne]
    · simp [removeSpringForce, hne]
    · intro hi
      simp only [removeSpringForce, if_neg (by omega : ¬ s.N_springForces ≤ i)]
      unfold appliedSpringData
      simp only [List.getElem?_map, List.getElem?_range (by omega : i < s.N_springForces - 1)]
      rfl

-- ####################################################################
-- VdW pair list (md2d.js lines 2163-2230), claim C6
-- ####################################################################

/-- The enumeration order of the double loop in `updateVdwPairsArray`
(md2d.js:2195, 2203): `i` from `0` to `N-1`, `j` from `i+1` to `N-1`. -/
def vdwPairOrder (N : ℕ) : List (ℕ × ℕ) :=
  (List.range N).bind fun i => (List.range (N - (i + 1))).map fun k => (i, i + 1 + k)

/-- The recording test of one iteration of `updateVdwPairsArray`
(md2d.js:2203-2224): skip radially bonded pairs; require a charge product
`≤ 0`; record when `r² < sig·distanceCutoff_sq` and `eps > 0`, where
`sig = (0.5(σi+σj))²`, `distanceCutoff_sq = vdwLinesRatio²` and — as in the
source, which reads `elementSigma` where epsilon was evidently intended
(md2d.js:2199, 2208) — `eps = σi·σj`. -/
def vdwQualifies (s : Engine) (i j : ℕ) : Bool :=
  if s.N_radialBonds ≠ 0 ∧ s.radialBondMatrix i j = true then false
  else
    let sigma_i := s.elementSigma (s.element i)
    let sigma_j := s.elementSigma (s.element j)
    let epsilon_i := s.elementSigma (s.element i)
    let epsilon_j := s.elementSigma (s.element j)
    if s.charge i * s.charge j ≤ 0 then
      let dx := s.x j - s.x i
      let dy := s.y j - s.y i
      let r_sq := dx * dx + dy * dy
      let sig := (1/2 * (sigma_i + sigma_j)) * (1/2 * (sigma_i + sigma_j))
      let eps := epsilon_i * epsilon_j
      decide (r_sq < sig * (s.vdwLinesR * s.vdwLinesR) ∧ 0 < eps)
    else false

/-- Record a qualifying pair (md2d.js:2221-2223).  The JS `uint16` array
write is silently dropped once the index reaches the allocated length
(`vdwCap`), but `N_vdwPairs++` still increments. -/
def vdwRecord (t : Engine) (i j : ℕ) : Engine :=
  let t1 :=
    if t.vdwCount < t.vdwCap then
      { t with vdwAtom1 := Function.update t.vdwAtom1 t.vdwCount i
               vdwAtom2 := Function.update t.vdwAtom2 t.vdwCount j }
    else t
  { t1 with vdwCount := t1.vdwCount + 1 }

/-- `engine.updateVdwPairsArray()` (md2d.js:2175): reset the count to zero,
then walk all pairs in order, recording the qualifying ones. -/
def updateVdwPairsArray (s : Engine) : Engine :=
  (vdwPairOrder s.N).foldl
    (fun t p => if vdwQualifies t p.1 p.2 then vdwRecord t p.1 p.2 else t)
    { s with vdwCount := 0 }

/-- `engine.createVdwPairsArray()` (md2d.js:2163): allocate the two index
arrays with capacity `maxNumPairs = N(N-1)/2` (exact: `N(N-1)` is even) and
fill them via `updateVdwPairsArray`. -/
def createVdwPairsArray (s : Engine) : Engine :=
  updateVdwPairsArray
    { s with vdwCap := s.N * (s.N - 1) / 2
             vdwAtom1 := fun _ => 0
             vdwAtom2 := fun _ => 0 }

/-- The recorded VdW pair list: the first `N_vdwPairs` entries of the two
index arrays. -/
def recordedVdwPairs (s : Engine) : List (ℕ × ℕ) :=
  (List.range s.vdwCount).map fun k => (s.vdwAtom1 k, s.vdwAtom2 k)

/-- Modelled from the spec: the membership condition exactly as claim C6
words it — not radially bonded, `charge_i·charge_j ≤ 0`, and squared
separation below `(vdwLinesRatio·σ_ij)²` with `σ_ij = (σ_i+σ_j)/2` (no
positivity condition on the sigmas). -/
def vdwClaimCond (s : Engine) (i j : ℕ) : Prop :=
  ¬ s.radialBondMatrix i j = true ∧
  s.charge i * s.charge j ≤ 0 ∧
  (s.x j - s.x i) * (s.x j - s.x i) + (s.y j - s.y i) * (s.y j - s.y i) <
    (s.vdwLinesR * ((s.elementSigma (s.element i) + s.elementSigma (s.element j)) / 2)) ^ 2

instance (s : Engine) (i j : ℕ) : Decidable (vdwClaimCond s i j) :=
  inferInstanceAs (Decidable (¬ s.radialBondMatrix i j = true ∧
    s.charge i * s.charge j ≤ 0 ∧
    (s.x j - s.x i) * (s.x j - s.x i) + (s.y j - s.y i) * (s.y j - s.y i) <
      (s.vdwLinesR *
        ((s.elementSigma (s.element i) + s.elementSigma (s.element j)) / 2)) ^ 2))

/-- The eight fields `vdwQualifies` reads; the recording fold leaves them
untouched. -/
def vdwReadersEq (s t : Engine) : Prop :=
  t.N_radialBonds = s.N_radialBonds ∧ t.radialBondMatrix = s.radialBondMatrix ∧
  t.element = s.element ∧ t.elementSigma = s.elementSigma ∧
  t.charge = s.charge ∧ t.x = s.x ∧ t.y = s.y ∧ t.vdwLinesR = s.vdwLinesR

theorem vdwQualifies_congr {s t : Engine} (h : vdwReadersEq s t) (i j : ℕ) :
    vdwQualifies t i j = vdwQualifies s i j := by
  obtain ⟨h1, h2, h3, h4, h5, h6, h7, h8⟩ := h
  unfold vdwQualifies
  rw [h1, h2, h3, h4, h5, h6, h7, h8]

theorem vdwReadersEq_record {s t : Engine} (h : vdwReadersEq s t) (i j : ℕ) :
    vdwReadersEq s (vdwRecord t i j) := by
  obtain ⟨h1, h2, h3, h4, h5, h6, h7, h8⟩ := h
  unfold vdwRecord
  split_ifs <;> exact ⟨h1, h2, h3, h4, h5, h6, h7, h8⟩

/-- The recording fold of `updateVdwPairsArray`, characterized: as long as
the capacity is not exceeded, the count advances by the number of qualifying
pairs and the slots written are exactly the qualifying pairs in order. -/
theorem vdwFold_spec (s : Engine) :
    ∀ (l : List (ℕ × ℕ)) (t : Engine), vdwReadersEq s t →
    t.vdwCount + (l.filter fun p => vdwQualifies s p.1 p.2).length ≤ t.vdwCap →
    vdwReadersEq s (l.foldl
        (fun t p => if vdwQualifies t p.1 p.2 then vdwRecord t p.1 p.2 else t) t) ∧
    (l.foldl (fun t p => if vdwQualifies t p.1 p.2 then vdwRecord t p.1 p.2 else t)
        t).vdwCap = t.vdwCap ∧
    (l.foldl (fun t p => if vdwQualifies t p.1 p.2 then vdwRecord t p.1 p.2 else t)
        t).vdwCount =
      t.vdwCount + (l.filter fun p => vdwQualifies s p.1 p.2).length ∧
    (∀ k, k < t.vdwCount →
      (l.foldl (fun t p => if vdwQualifies t p.1 p.2 then vdwRecord t p.1 p.2 else t)
          t).vdwAtom1 k = t.vdwAtom1 k ∧
      (l.foldl (fun t p => if vdwQualifies t p.1 p.2 then vdwRecord t p.1 p.2 else t)
          t).vdwAtom2 k = t.vdwAtom2 k) ∧
    (∀ m, m < (l.filter fun p => vdwQualifies s p.1 p.2).length →
      some ((l.foldl (fun t p => if vdwQualifies t p.1 p.2 then vdwRecord t p.1 p.2 else t)
          t).vdwAtom1 (t.vdwCount + m),
       (l.foldl (fun t p => if vdwQualifies t p.1 p.2 then vdwRecord t p.1 p.2 else t)
          t).vdwAtom2 (t.vdwCount + m)) =
        (l.filter fun p => vdwQualifies s p.1 p.2)[m]?) := by
  intro l
  induction l with
  | nil =>
      intro t hr hc
      refine ⟨hr, rfl, by simp, fun k _ => ⟨rfl, rfl⟩, fun m hm => by simp at hm⟩
  | cons p rest ih =>
      intro t hr hc
      by_cases hq : vdwQualifies s p.1 p.2 = true
      · have hqt : vdwQualifies t p.1 p.2 = true := by rw [vdwQualifies_congr hr]; exact hq
        have hfil : (p :: rest).filter (fun p => vdwQualifies s p.1 p.2) =
            p :: rest.filter fun p => vdwQualifies s p.1 p.2 := by
          simp [List.filter_cons, hq]
        have hwrite : t.vdwCount < t.vdwCap := by
          rw [hfil] at hc
          simp at hc
          omega
        have hrec1 : (vdwRecord t p.1 p.2).vdwCount = t.vdwCount + 1 := by
          unfold vdwRecord
          split_ifs <;> rfl
        have hrec2 : (vdwRecord t p.1 p.2).vdwCap = t.vdwCap := by
          unfold vdwRecord
          split_ifs <;> rfl
        have hrec3 : ∀ k, k < t.vdwCount →
            (vdwRecord t p.1 p.2).vdwAtom1 k = t.vdwAtom1 k ∧
            (vdwRecord t p.1 p.2).vdwAtom2 k = t.vdwAtom2 k := by
          intro k hk
          unfold vdwRecord
          rw [if_pos hwrite]
          constructor <;>
            exact Function.update_noteq (by omega) _ _
        have hrec4 : (vdwRecord t p.1 p.2).vdwAtom1 t.vdwCount = p.1 ∧
            (vdwRecord t p.1 p.2).vdwAtom2 t.vdwCount = p.2 := by
          unfold vdwRecord
          rw [if_pos hwrite]
          constructor <;> exact Function.update_same _ _ _
        have hr1 := vdwReadersEq_record hr p.1 p.2
        have hc1 : (vdwRecord t p.1 p.2).vdwCount +
            (rest.filter fun p => vdwQualifies s p.1 p.2).length ≤
            (vdwRecord t p.1 p.2).vdwCap := by
          rw [hrec1, hrec2]
          rw [hfil] at hc
          simp at hc
          omega
        obtain ⟨ha, hb, hcnt, hold, hnew⟩ := ih (vdwRecord t p.1 p.2) hr1 hc1
        rw [List.foldl_cons, if_pos hqt]
        refine ⟨ha, by rw [hb, hrec2], ?_, ?_, ?_⟩
        · rw [hcnt, hrec1, hfil]
          simp
          omega
        · intro k hk
          obtain ⟨u1, u2⟩ := hold k (by omega)
          obtain ⟨v1, v2⟩ := hrec3 k hk
          exact ⟨u1.trans v1, u2.trans v2⟩
        · intro m hm
          rw [hfil] at hm ⊢
          match m with
          | 0 =>
              obtain ⟨u1, u2⟩ := hold t.vdwCount (by omega)
              simp only [Nat.add_zero, List.getElem?_cons_zero]
              rw [u1, u2, hrec4.1, hrec4.2]
          | Nat.succ m' =>
              have hm' : m' < (rest.filter fun p => vdwQualifies s p.1 p.2).length := by
                simp at hm
                omega
              have := hnew m' hm'
              rw [hrec1] at this
              have harith : t.vdwCount + (m' + 1) = t.vdwCount + 1 + m' := by omega
              rw [harith, List.getElem?_cons_succ]
              exact this
      · have hqt : vdwQualifies t p.1 p.2 = false := by
          rw [vdwQualifies_congr hr]
          exact Bool.not_eq_true _ |>.mp hq
        have hfil : (p :: rest).filter (fun p => vdwQualifies s p.1 p.2) =
            rest.filter fun p => vdwQualifies s p.1 p.2 := by
          simp [List.filter_cons, hq]
        rw [List.foldl_cons, if_neg (by simp [hqt])]
        rw [hfil] at hc
        obtain ⟨ha, hb, hcnt, hold, hnew⟩ := ih t hr hc
        exact ⟨ha, hb, by rw [hcnt, hfil], hold, by rw [hfil]; exact hnew⟩

/-- The fold of `updateVdwPairsArray` never changes the allocated capacity. -/
theorem vdwFold_cap (l : List (ℕ × ℕ)) (t : Engine) :
    (l.foldl (fun t p => if vdwQualifies t p.1 p.2 then vdwRecord t p.1 p.2 else t)
      t).vdwCap = t.vdwCap := by
  induction l generalizing t with
  | nil => rfl
  | cons p rest ih =>
      rw [List.foldl_cons, ih]
      split_ifs
      · unfold vdwRecord
        split_ifs <;> rfl
      · rfl

theorem listSum_range (n : ℕ) (f : ℕ → ℕ) :
    ((List.range n).map f).sum = ∑ i ∈ Finset.range n, f i := by
  induction n with
  | zero => simp
  | succ m ih =>
      rw [List.range_succ, List.map_append, List.sum_append, Finset.sum_range_succ, ih]
      simp

/-- The pair enumeration has exactly `N(N-1)/2` entries — the capacity
`createVdwPairsArray` allocates. -/
theorem vdwPairOrder_length (N : ℕ) : (vdwPairOrder N).length = N * (N - 1) / 2 := by
  unfold vdwPairOrder
  rw [List.length_bind]
  have h1 : (List.map (List.length ∘ fun i =>
        List.map (fun k => (i, i + 1 + k)) (List.range (N - (i + 1)))) (List.range N)) =
      (List.range N).map fun i => N - (i + 1) := by
    simp [Function.comp_def]
  rw [h1, listSum_range]
  have h2 : ∀ i ∈ Finset.range N, N - (i + 1) = N - 1 - i := fun i _ => by omega
  rw [Finset.sum_congr rfl h2, Finset.sum_range_reflect (fun j => j) N, Finset.sum_range_id]

theorem vdwPairOrder_mem (N i j : ℕ) :
    (i, j) ∈ vdwPairOrder N ↔ i < j ∧ j < N := by
  unfold vdwPairOrder
  simp only [List.mem_bind, List.mem_map, List.mem_range]
  constructor
  · rintro ⟨a, ha, k, hk, hpair⟩
    rw [Prod.mk.injEq] at hpair
    obtain ⟨rfl, rfl⟩ := hpair
    omega
  · rintro ⟨hij, hjN⟩
    refine ⟨i, by omega, j - (i + 1), by omega, ?_⟩
    rw [Prod.mk.injEq]
    omega

/-- The recording condition of the source, rewritten in the claim's shape:
the source records a pair iff it is not skipped as bonded, the charge product
is `≤ 0`, `r² < (vdwLinesRatio·σ_ij)²` with `σ_ij = (σ_i+σ_j)/2`, AND
additionally `σ_i·σ_j > 0` (the source's `eps > 0` check, computed from
`elementSigma` because of the epsilon/sigma slip). -/
theorem vdwQualifies_iff (s : Engine) (i j : ℕ) :
    vdwQualifies s i j = true ↔
      (¬(s.N_radialBonds ≠ 0 ∧ s.radialBondMatrix i j = true) ∧
       s.charge i * s.charge j ≤ 0 ∧
       (s.x j - s.x i) * (s.x j - s.x i) + (s.y j - s.y i) * (s.y j - s.y i) <
         (s.vdwLinesR *
           ((s.elementSigma (s.element i) + s.elementSigma (s.element j)) / 2)) ^ 2 ∧
       0 < s.elementSigma (s.element i) * s.elementSigma (s.element j)) := by
  have hring : (1/2 * (s.elementSigma (s.element i) + s.elementSigma (s.element j))) *
      (1/2 * (s.elementSigma (s.element i) + s.elementSigma (s.element j))) *
      (s.vdwLinesR * s.vdwLinesR) =
      (s.vdwLinesR *
        ((s.elementSigma (s.element i) + s.elementSigma (s.element j)) / 2)) ^ 2 := by
    ring
  unfold vdwQualifies
  split_ifs with h1 h2
  · simp [h1]
  · rw [decide_eq_true_iff]
    constructor
    · rintro ⟨ha, hb⟩
      exact ⟨h1, h2, by rw [← hring]; exact ha, hb⟩
    · rintro ⟨_, _, ha, hb⟩
      exact ⟨by rw [hring]; exact ha, hb⟩
  · simp [h1, h2]

/-- C6 (amended): after `updateVdwPairsArray`, the recorded pair list is
exactly the unordered pairs `(i, j)`, `i < j < N`, that are not radially
bonded, have charge product `≤ 0`, squared separation below
`(vdwLinesRatio·σ_ij)²` — AND positive sigma product (the source's `eps > 0`
check, which reads `elementSigma` where epsilon was intended); the count
never exceeds the capacity `N(N-1)/2` that `createVdwPairsArray`
allocates. -/
theorem C6_updateVdwPairsArray (s : Engine)
    (hcap : s.vdwCap = s.N * (s.N - 1) / 2) :
    recordedVdwPairs (updateVdwPairsArray s) =
      (vdwPairOrder s.N).filter (fun p => vdwQualifies s p.1 p.2) ∧
    (updateVdwPairsArray s).vdwCount ≤ (updateVdwPairsArray s).vdwCap ∧
    (∀ i j, (i, j) ∈ recordedVdwPairs (updateVdwPairsArray s) ↔
      (i < j ∧ j < s.N ∧
       ¬(s.N_radialBonds ≠ 0 ∧ s.radialBondMatrix i j = true) ∧
       s.charge i * s.charge j ≤ 0 ∧
       (s.x j - s.x i) * (s.x j - s.x i) + (s.y j - s.y i) * (s.y j - s.y i) <
         (s.vdwLinesR *
           ((s.elementSigma (s.element i) + s.elementSigma (s.element j)) / 2)) ^ 2 ∧
       0 < s.elementSigma (s.element i) * s.elementSigma (s.element j))) ∧
    (createVdwPairsArray s).vdwCap = s.N * (s.N - 1) / 2 := by
  have hr0 : vdwReadersEq s { s with vdwCount := 0 } :=
    ⟨rfl, rfl, rfl, rfl, rfl, rfl, rfl, rfl⟩
  have hlen : ((vdwPairOrder s.N).filter fun p => vdwQualifies s p.1 p.2).length ≤
      s.vdwCap := by
    rw [hcap, ← vdwPairOrder_length]
    exact List.length_filter_le _ _
  obtain ⟨ha, hb, hcnt, hold, hnew⟩ :=
    vdwFold_spec s (vdwPairOrder s.N) { s with vdwCount := 0 } hr0
      (by simpa using hlen)
  have hmain : recordedVdwPairs (updateVdwPairsArray s) =
      (vdwPairOrder s.N).filter (fun p => vdwQualifies s p.1 p.2) := by
    unfold recordedVdwPairs updateVdwPairsArray
    apply List.ext_getElem?
    intro m
    by_cases hm : m < ((vdwPairOrder s.N).filter fun p => vdwQualifies s p.1 p.2).length
    · have hcount : (((vdwPairOrder s.N)).foldl
          (fun t p => if vdwQualifies t p.1 p.2 then vdwRecord t p.1 p.2 else t)
          { s with vdwCount := 0 }).vdwCount =
          ((vdwPairOrder s.N).filter fun p => vdwQualifies s p.1 p.2).length := by
        simpa using hcnt
      rw [List.getElem?_map]
      rw [List.getElem?_range (by rw [hcount]; exact hm)]
      have := hnew m hm
      simpa using this
    · have hcount : (((vdwPairOrder s.N)).foldl
          (fun t p => if vdwQualifies t p.1 p.2 then vdwRecord t p.1 p.2 else t)
          { s with vdwCount := 0 }).vdwCount =
          ((vdwPairOrder s.N).filter fun p => vdwQualifies s p.1 p.2).length := by
        simpa using hcnt
      rw [List.getElem?_map]
      rw [List.getElem?_eq_none (by rw [List.length_range, hcount]; omega),
          List.getElem?_eq_none (by omega)]
      rfl
  refine ⟨hmain, ?_, ?_, ?_⟩
  · show (updateVdwPairsArray s).vdwCount ≤ (updateVdwPairsArray s).vdwCap
    unfold updateVdwPairsArray
    have hb' : (((vdwPairOrder s.N)).foldl
        (fun t p => if vdwQualifies t p.1 p.2 then vdwRecord t p.1 p.2 else t)
        { s with vdwCount := 0 }).vdwCap = s.vdwCap := by
      simpa using hb
    have hcount : (((vdwPairOrder s.N)).foldl
        (fun t p => if vdwQualifies t p.1 p.2 then vdwRecord t p.1 p.2 else t)
        { s with vdwCount := 0 }).vdwCount =
        ((vdwPairOrder s.N).filter fun p => vdwQualifies s p.1 p.2).length := by
      simpa using hcnt
    rw [hb', hcount]
    exact hlen
  · intro i j
    rw [hmain, List.mem_filter]
    rw [vdwPairOrder_mem]
    rw [show (i, j).1 = i from rfl, show (i, j).2 = j from rfl]
    rw [vdwQualifies_iff]
    tauto
  · unfold createVdwPairsArray updateVdwPairsArray
    rw [vdwFold_cap]

/-- Concrete state for claim C6: two atoms of elements with `σ = 0` and
`σ = 2`, uncharged, unbonded, at distance `0.1 nm`; capacity
`N(N-1)/2 = 1`. -/
def engineC6 : Engine :=
  { elementsHaveBeenCreated := true, atomsHaveBeenCreated := true
    sizeHasBeenInitialized := true
    N := 2, N_elements := 2
    elementSigma := fun e => if e = 0 then 0 else 2
    element := fun i => if i = 0 then 0 else 1
    x := fun i => if i = 0 then 0 else 1/10
    vdwCap := 1 }

/-- C6 counterexample: the pair `(0, 1)` of `engineC6` satisfies the claim's
membership condition (non-bonded, charge product `≤ 0`,
`r² = 0.01 < (1.67·(0+2)/2)² ≈ 2.789`), yet `updateVdwPairsArray` records
nothing, because the source also requires `eps > 0` where
`eps = σ_0·σ_1 = 0`. -/
theorem C6_counterexample_eps_positivity :
    vdwClaimCond engineC6 0 1 ∧
    recordedVdwPairs (updateVdwPairsArray engineC6) = [] ∧
    engineC6.vdwCap = engineC6.N * (engineC6.N - 1) / 2 := by
  refine ⟨?_, ?_, by decide⟩
  · unfold vdwClaimCond
    refine ⟨by simp [engineC6], by simp [engineC6], ?_⟩
    norm_num [engineC6]
  · unfold updateVdwPairsArray
    rw [show engineC6.N = 2 from rfl]
    rw [show vdwPairOrder 2 = [(0, 1)] from by decide]
    rw [List.foldl_cons, List.foldl_nil, if_neg (by simp [vdwQualifies, engineC6])]
    rfl

/-- C6 witness: the amended theorem applied at `engineC6`. -/
theorem C6_updateVdwPairsArray_witness :
    engineC6.vdwCap = engineC6.N * (engineC6.N - 1) / 2 ∧
    recordedVdwPairs (updateVdwPairsArray engineC6) =
      (vdwPairOrder engineC6.N).filter (fun p => vdwQualifies engineC6 p.1 p.2) ∧
    (updateVdwPairsArray engineC6).vdwCount ≤ (updateVdwPairsArray engineC6).vdwCap ∧
    (createVdwPairsArray engineC6).vdwCap = engineC6.N * (engineC6.N - 1) / 2 :=
  ⟨by decide, (C6_updateVdwPairsArray engineC6 (by decide)).1,
    (C6_updateVdwPairsArray engineC6 (by decide)).2.1,
    (C6_updateVdwPairsArray engineC6 (by decide)).2.2.2⟩

-- ####################################################################
-- Atom-obstacle collisions (md2d.js lines 949-1059), claim C7
-- ####################################################################

/-- JS `(local ? local : dflt)` for a possibly-`undefined` numeric local:
`undefined` and `0` are both falsy. -/
def jsLocalOr (o : Option ℚ) (dflt : ℚ) : ℚ :=
  match o with
  | none => dflt
  | some v => if v = 0 then dflt else v

/-- The collision-detection step of one obstacle iteration of
`bounceParticleOffObstacles` (md2d.js:982-1009): inflate obstacle `j` by the
atom radius, test whether `(xi, yi)` is inside, determine the crossed wall
from the previous positions (west, east, south, north priority), reflect the
atom position about that wall.  Returns the updated state and
`bounceDirection` (`1` west, `2` east, `-1` south, `-2` north, `0` none).
`r`, `xi`, `yi` are the values the source reads once before its obstacle
loop. -/
def obstacleDetect (s : Engine) (i j : ℕ) (r xi yi x_prev y_prev : ℚ) :
    Engine × ℤ :=
  let x_left := s.obstacleX j - r
  let x_right := s.obstacleX j + s.obstacleWidth j + r
  let y_top := s.obstacleY j + s.obstacleHeight j + r
  let y_bottom := s.obstacleY j - r
  let x_left_prev := s.obstacleXPrev j - r
  let x_right_prev := s.obstacleXPrev j + s.obstacleWidth j + r
  let y_top_prev := s.obstacleYPrev j + s.obstacleHeight j + r
  let y_bottom_prev := s.obstacleYPrev j - r
  if x_left < xi ∧ xi < x_right ∧ y_bottom < yi ∧ yi < y_top then
    if x_prev ≤ x_left_prev then
      ({ s with x := Function.update s.x i (x_left - (xi - x_left)) }, 1)
    else if x_right_prev ≤ x_prev then
      ({ s with x := Function.update s.x i (x_right + (x_right - xi)) }, 2)
    else if y_prev ≤ y_bottom_prev then
      ({ s with y := Function.update s.y i (y_bottom - (yi - y_bottom)) }, -1)
    else if y_top_prev ≤ y_prev then
      ({ s with y := Function.update s.y i (y_top + (y_top - yi)) }, -2)
    else (s, 0)
  else (s, 0)

/-- The velocity step of one obstacle iteration (md2d.js:1013-1038): for a
movable obstacle a 1-D perfectly elastic two-body collision on the normal
component (the obstacle update reads the atom momentum `px`/`py`); for an
infinite-mass obstacle the atom's normal velocity is flipped.  The returned
options model the JS locals `vxPrev`/`vyPrev`, assigned only in the movable
branch. -/
def obstacleVelocityUpdate (s : Engine) (i j : ℕ) (bd : ℤ)
    (vxPrev vyPrev : Option ℚ) : Engine × Option ℚ × Option ℚ :=
  if ¬ s.obstacleMassInf j then
    let atom_mass := s.mass i
    let obs_mass := s.obstacleMass j
    let totalMass := obs_mass + atom_mass
    if 0 < bd then
      let vxP := s.vx i
      let obs_vxP := s.obstacleVX j
      ({ s with
          vx := Function.update s.vx i
            ((vxP * (atom_mass - obs_mass) + 2 * obs_mass * obs_vxP) / totalMass)
          obstacleVX := Function.update s.obstacleVX j
            ((obs_vxP * (obs_mass - atom_mass) + 2 * s.px i) / totalMass) },
        some vxP, vyPrev)
    else
      let vyP := s.vy i
      let obs_vyP := s.obstacleVY j
      ({ s with
          vy := Function.update s.vy i
            ((vyP * (atom_mass - obs_mass) + 2 * obs_mass * obs_vyP) / totalMass)
          obstacleVY := Function.update s.obstacleVY j
            ((obs_vyP * (obs_mass - atom_mass) + 2 * s.py i) / totalMass) },
        vxPrev, some vyP)
  else
    if 0 < bd then
      ({ s with vx := Function.update s.vx i (-(s.vx i)) }, vxPrev, vyPrev)
    else
      ({ s with vy := Function.update s.vy i (-(s.vy i)) }, vxPrev, vyPrev)

/-- The pressure-probe step of one obstacle iteration (md2d.js:1040-1055):
when `updatePressure` and the crossed wall's probe is enabled, accumulate
`mass[i] * ((vxPrev ? vxPrev : -vx[i]) - vx[i])` (west; the other walls
analogously, east/north with the opposite sign), where `vx[i]` is the
post-collision velocity and the JS truthiness test replaces an `undefined`
or ZERO `vxPrev` by `-vx[i]`. -/
def obstaclePressureUpdate (s : Engine) (i j : ℕ) (bd : ℤ)
    (vxPrev vyPrev : Option ℚ) (updatePressure : Bool) : Engine :=
  if updatePressure then
    if s.obstacleWestProbe j = true ∧ bd = 1 then
      let dW := s.mass i * (jsLocalOr vxPrev (-(s.vx i)) - s.vx i)
      { s with obstacleWProbeValue := Function.update s.obstacleWProbeValue j (s.obstacleWProbeValue j + dW) }
    else if s.obstacleEastProbe j = true ∧ bd = 2 then
      let dE := s.mass i * (s.vx i - jsLocalOr vxPrev (-(s.vx i)))
      { s with obstacleEProbeValue := Function.update s.obstacleEProbeValue j (s.obstacleEProbeValue j + dE) }
    else if s.obstacleSouthProbe j = true ∧ bd = -1 then
      let dS := s.mass i * (jsLocalOr vyPrev (-(s.vy i)) - s.vy i)
      { s with obstacleSProbeValue := Function.update s.obstacleSProbeValue j (s.obstacleSProbeValue j + dS) }
    else if s.obstacleNorthProbe j = true ∧ bd = -2 then
      let dN := s.mass i * (s.vy i - jsLocalOr vyPrev (-(s.vy i)))
      { s with obstacleNProbeValue := Function.update s.obstacleNProbeValue j (s.obstacleNProbeValue j + dN) }
    else s
  else s

/-- One full iteration of the obstacle loop of `bounceParticleOffObstacles`
for atom `i` against obstacle `j`, threading the JS locals. -/
def collideOneObstacle (st : Engine × Option ℚ × Option ℚ) (i j : ℕ)
    (r xi yi x_prev y_prev : ℚ) (updatePressure : Bool) :
    Engine × Option ℚ × Option ℚ :=
  let det := obstacleDetect st.1 i j r xi yi x_prev y_prev
  let s1 := det.1
  let bd := det.2
  if bd = 0 then (s1, st.2.1, st.2.2)
  else
    let vel := obstacleVelocityUpdate s1 i j bd st.2.1 st.2.2
    (obstaclePressureUpdate vel.1 i j bd vel.2.1 vel.2.2 updatePressure,
      vel.2.1, vel.2.2)

/-- `bounceParticleOffObstacles(i, x_prev, y_prev, updatePressure)`
(md2d.js:949).  `r = radius[i]`, `xi = x[i]`, `yi = y[i]` are read once
before the loop over all obstacles; the JS locals `vxPrev`/`vyPrev` start
`undefined` and persist across obstacle iterations. -/
def bounceParticleOffObstacles (s : Engine) (i : ℕ) (x_prev y_prev : ℚ)
    (updatePressure : Bool) : Engine :=
  if s.N_obstacles < 1 then s
  else
    let r := s.radius i
    let xi := s.x i
    let yi := s.y i
    (iterOver s.N_obstacles
      (fun j st => collideOneObstacle st i j r xi yi x_prev y_prev updatePressure)
      (s, none, none)).1

/-- With a single obstacle, `bounceParticleOffObstacles` is one loop
iteration started with `undefined` locals. -/
theorem bounceObstacles_one (s : Engine) (i : ℕ) (x_prev y_prev : ℚ) (up : Bool)
    (hn : s.N_obstacles = 1) :
    bounceParticleOffObstacles s i x_prev y_prev up =
      (collideOneObstacle (s, none, none) i 0 (s.radius i) (s.x i) (s.y i)
        x_prev y_prev up).1 := by
  unfold bounceParticleOffObstacles
  rw [hn]
  rfl

/-- The inflated-rectangle inside test of md2d.js:995, in the source's
order. -/
def obstacleHit (s : Engine) (j : ℕ) (r xi yi : ℚ) : Prop :=
  s.obstacleX j - r < xi ∧ xi < s.obstacleX j + s.obstacleWidth j + r ∧
  s.obstacleY j - r < yi ∧ yi < s.obstacleY j + s.obstacleHeight j + r

/-- md2d.js:996, `x_prev <= x_left_prev`. -/
def crossedWest (s : Engine) (j : ℕ) (r x_prev : ℚ) : Prop :=
  x_prev ≤ s.obstacleXPrev j - r

/-- md2d.js:999, `x_prev >= x_right_prev`. -/
def crossedEast (s : Engine) (j : ℕ) (r x_prev : ℚ) : Prop :=
  s.obstacleXPrev j + s.obstacleWidth j + r ≤ x_prev

/-- md2d.js:1002, `y_prev <= y_bottom_prev`. -/
def crossedSouth (s : Engine) (j : ℕ) (r y_prev : ℚ) : Prop :=
  y_prev ≤ s.obstacleYPrev j - r

/-- md2d.js:1005, `y_prev >= y_top_prev`. -/
def crossedNorth (s : Engine) (j : ℕ) (r y_prev : ℚ) : Prop :=
  s.obstacleYPrev j + s.obstacleHeight j + r ≤ y_prev

theorem obstacleDetect_west (s : Engine) (i j : ℕ) (r xi yi x_prev y_prev : ℚ)
    (hhit : obstacleHit s j r xi yi) (hw : crossedWest s j r x_prev) :
    obstacleDetect s i j r xi yi x_prev y_prev =
      ({ s with x := Function.update s.x i
                  ((s.obstacleX j - r) - (xi - (s.obstacleX j - r))) }, 1) := by
  unfold obstacleHit at hhit
  unfold crossedWest at hw
  unfold obstacleDetect
  dsimp only
  rw [if_pos hhit, if_pos hw]

theorem obstacleDetect_east (s : Engine) (i j : ℕ) (r xi yi x_prev y_prev : ℚ)
    (hhit : obstacleHit s j r xi yi) (hnw : ¬ crossedWest s j r x_prev)
    (he : crossedEast s j r x_prev) :
    obstacleDetect s i j r xi yi x_prev y_prev =
      ({ s with x := Function.update s.x i
                  ((s.obstacleX j + s.obstacleWidth j + r) +
                    ((s.obstacleX j + s.obstacleWidth j + r) - xi)) }, 2) := by
  unfold obstacleHit at hhit
  unfold crossedWest at hnw
  unfold crossedEast at he
  unfold obstacleDetect
  dsimp only
  rw [if_pos hhit, if_neg hnw, if_pos he]

theorem obstacleDetect_south (s : Engine) (i j : ℕ) (r xi yi x_prev y_prev : ℚ)
    (hhit : obstacleHit s j r xi yi) (hnw : ¬ crossedWest s j r x_prev)
    (hne : ¬ crossedEast s j r x_prev) (hs : crossedSouth s j r y_prev) :
    obstacleDetect s i j r xi yi x_prev y_prev =
      ({ s with y := Function.update s.y i
                  ((s.obstacleY j - r) - (yi - (s.obstacleY j - r))) }, -1) := by
  unfold obstacleHit at hhit
  unfold crossedWest at hnw
  unfold crossedEast at hne
  unfold crossedSouth at hs
  unfold obstacleDetect
  dsimp only
  rw [if_pos hhit, if_neg hnw, if_neg hne, if_pos hs]

theorem obstacleDetect_north (s : Engine) (i j : ℕ) (r xi yi x_prev y_prev : ℚ)
    (hhit : obstacleHit s j r xi yi) (hnw : ¬ crossedWest s j r x_prev)
    (hne : ¬ crossedEast s j r x_prev) (hns : ¬ crossedSouth s j r y_prev)
    (hn : crossedNorth s j r y_prev) :
    obstacleDetect s i j r xi yi x_prev y_prev =
      ({ s with y := Function.update s.y i
                  ((s.obstacleY j + s.obstacleHeight j + r) +
                    ((s.obstacleY j + s.obstacleHeight j + r) - yi)) }, -2) := by
  unfold obstacleHit at hhit
  unfold crossedWest at hnw
  unfold crossedEast at hne
  unfold crossedSouth at hns
  unfold crossedNorth at hn
  unfold obstacleDetect
  dsimp only
  rw [if_pos hhit, if_neg hnw, if_neg hne, if_neg hns, if_pos hn]

theorem obstacleVelocityUpdate_x_movable (s : Engine) (i j : ℕ) (bd : ℤ)
    (vxPrev vyPrev : Option ℚ) (hinf : s.obstacleMassInf j = false) (hbd : 0 < bd) :
    obstacleVelocityUpdate s i j bd vxPrev vyPrev =
      ({ s with
          vx := Function.update s.vx i
                  ((s.vx i * (s.mass i - s.obstacleMass j) +
                    2 * s.obstacleMass j * s.obstacleVX j) / (s.obstacleMass j + s.mass i))
          obstacleVX := Function.update s.obstacleVX j
                  ((s.obstacleVX j * (s.obstacleMass j - s.mass i) + 2 * s.px i) /
                    (s.obstacleMass j + s.mass i)) },
        some (s.vx i), vyPrev) := by
  unfold obstacleVelocityUpdate
  rw [if_pos (by simp [hinf]), if_pos hbd]

theorem obstacleVelocityUpdate_y_movable (s : Engine) (i j : ℕ) (bd : ℤ)
    (vxPrev vyPrev : Option ℚ) (hinf : s.obstacleMassInf j = false) (hbd : ¬ 0 < bd) :
    obstacleVelocityUpdate s i j bd vxPrev vyPrev =
      ({ s with
          vy := Function.update s.vy i
                  ((s.vy i * (s.mass i - s.obstacleMass j) +
                    2 * s.obstacleMass j * s.obstacleVY j) / (s.obstacleMass j + s.mass i))
          obstacleVY := Function.update s.obstacleVY j
                  ((s.obstacleVY j * (s.obstacleMass j - s.mass i) + 2 * s.py i) /
                    (s.obstacleMass j + s.mass i)) },
        vxPrev, some (s.vy i)) := by
  unfold obstacleVelocityUpdate
  rw [if_pos (by simp [hinf]), if_neg hbd]

theorem obstacleVelocityUpdate_x_immovable (s : Engine) (i j : ℕ) (bd : ℤ)
    (vxPrev vyPrev : Option ℚ) (hinf : s.obstacleMassInf j = true) (hbd : 0 < bd) :
    obstacleVelocityUpdate s i j bd vxPrev vyPrev =
      ({ s with vx := Function.update s.vx i (-(s.vx i)) }, vxPrev, vyPrev) := by
  unfold obstacleVelocityUpdate
  rw [if_neg (by simp [hinf]), if_pos hbd]

theorem obstacleVelocityUpdate_y_immovable (s : Engine) (i j : ℕ) (bd : ℤ)
    (vxPrev vyPrev : Option ℚ) (hinf : s.obstacleMassInf j = true) (hbd : ¬ 0 < bd) :
    obstacleVelocityUpdate s i j bd vxPrev vyPrev =
      ({ s with vy := Function.update s.vy i (-(s.vy i)) }, vxPrev, vyPrev) := by
  unfold obstacleVelocityUpdate
  rw [if_neg (by simp [hinf]), if_neg hbd]

theorem obstaclePressureUpdate_west (s : Engine) (i j : ℕ)
    (vxPrev vyPrev : Option ℚ) (hp : s.obstacleWestProbe j = true) :
    obstaclePressureUpdate s i j 1 vxPrev vyPrev true =
      { s with obstacleWProbeValue :=
                  Function.update s.obstacleWProbeValue j
                    (s.obstacleWProbeValue j + s.mass i * (jsLocalOr vxPrev (-(s.vx i)) - s.vx i)) } := by
  unfold obstaclePressureUpdate
  rw [if_pos rfl, if_pos ⟨hp, rfl⟩]

theorem obstaclePressureUpdate_east (s : Engine) (i j : ℕ)
    (vxPrev vyPrev : Option ℚ) (hp : s.obstacleEastProbe j = true) :
    obstaclePressureUpdate s i j 2 vxPrev vyPrev true =
      { s with obstacleEProbeValue :=
                  Function.update s.obstacleEProbeValue j
                    (s.obstacleEProbeValue j + s.mass i * (s.vx i - jsLocalOr vxPrev (-(s.vx i)))) } := by
  unfold obstaclePressureUpdate
  rw [if_pos rfl, if_neg (by simp), if_pos ⟨hp, rfl⟩]

theorem obstaclePressureUpdate_south (s : Engine) (i j : ℕ)
    (vxPrev vyPrev : Option ℚ) (hp : s.obstacleSouthProbe j = true) :
    obstaclePressureUpdate s i j (-1) vxPrev vyPrev true =
      { s with obstacleSProbeValue :=
                  Function.update s.obstacleSProbeValue j
                    (s.obstacleSProbeValue j + s.mass i * (jsLocalOr vyPrev (-(s.vy i)) - s.vy i)) } := by
  unfold obstaclePressureUpdate
  rw [if_pos rfl, if_neg (by simp), if_neg (by simp), if_pos ⟨hp, rfl⟩]

theorem obstaclePressureUpdate_north (s : Engine) (i j : ℕ)
    (vxPrev vyPrev : Option ℚ) (hp : s.obstacleNorthProbe j = true) :
    obstaclePressureUpdate s i j (-2) vxPrev vyPrev true =
      { s with obstacleNProbeValue :=
                  Function.update s.obstacleNProbeValue j
                    (s.obstacleNProbeValue j + s.mass i * (s.vy i - jsLocalOr vyPrev (-(s.vy i)))) } := by
  unfold obstaclePressureUpdate
  rw [if_pos rfl, if_neg (by simp), if_neg (by simp), if_neg (by simp), if_pos ⟨hp, rfl⟩]

/-- `obstacleDetect` only moves the atom's position: every other field the
collision and pressure steps read is unchanged. -/
theorem obstacleDetect_frame (s : Engine) (i j : ℕ) (r xi yi xp yp : ℚ) :
    (obstacleDetect s i j r xi yi xp yp).1.vx = s.vx ∧
    (obstacleDetect s i j r xi yi xp yp).1.vy = s.vy ∧
    (obstacleDetect s i j r xi yi xp yp).1.px = s.px ∧
    (obstacleDetect s i j r xi yi xp yp).1.py = s.py ∧
    (obstacleDetect s i j r xi yi xp yp).1.mass = s.mass ∧
    (obstacleDetect s i j r xi yi xp yp).1.obstacleMass = s.obstacleMass ∧
    (obstacleDetect s i j r xi yi xp yp).1.obstacleMassInf = s.obstacleMassInf ∧
    (obstacleDetect s i j r xi yi xp yp).1.obstacleVX = s.obstacleVX ∧
    (obstacleDetect s i j r xi yi xp yp).1.obstacleVY = s.obstacleVY ∧
    (obstacleDetect s i j r xi yi xp yp).1.obstacleWestProbe = s.obstacleWestProbe ∧
    (obstacleDetect s i j r xi yi xp yp).1.obstacleEastProbe = s.obstacleEastProbe ∧
    (obstacleDetect s i j r xi yi xp yp).1.obstacleSouthProbe = s.obstacleSouthProbe ∧
    (obstacleDetect s i j r xi yi xp yp).1.obstacleNorthProbe = s.obstacleNorthProbe ∧
    (obstacleDetect s i j r xi yi xp yp).1.obstacleWProbeValue = s.obstacleWProbeValue ∧
    (obstacleDetect s i j r xi yi xp yp).1.obstacleEProbeValue = s.obstacleEProbeValue ∧
    (obstacleDetect s i j r xi yi xp yp).1.obstacleSProbeValue = s.obstacleSProbeValue ∧
    (obstacleDetect s i j r xi yi xp yp).1.obstacleNProbeValue = s.obstacleNProbeValue := by
  unfold obstacleDetect
  dsimp only
  split_ifs <;>
    exact ⟨rfl, rfl, rfl, rfl, rfl, rfl, rfl, rfl, rfl, rfl, rfl, rfl, rfl, rfl,
      rfl, rfl, rfl⟩

/-- Unfolding one obstacle iteration when a wall was crossed. -/
theorem collideOne_eq (st : Engine × Option ℚ × Option ℚ) (i j : ℕ)
    (r xi yi xp yp : ℚ) (up : Bool)
    (hbd : ¬ (obstacleDetect st.1 i j r xi yi xp yp).2 = 0) :
    collideOneObstacle st i j r xi yi xp yp up =
      (obstaclePressureUpdate
          (obstacleVelocityUpdate (obstacleDetect st.1 i j r xi yi xp yp).1 i j
            (obstacleDetect st.1 i j r xi yi xp yp).2 st.2.1 st.2.2).1 i j
          (obstacleDetect st.1 i j r xi yi xp yp).2
          (obstacleVelocityUpdate (obstacleDetect st.1 i j r xi yi xp yp).1 i j
            (obstacleDetect st.1 i j r xi yi xp yp).2 st.2.1 st.2.2).2.1
          (obstacleVelocityUpdate (obstacleDetect st.1 i j r xi yi xp yp).1 i j
            (obstacleDetect st.1 i j r xi yi xp yp).2 st.2.1 st.2.2).2.2 up,
        (obstacleVelocityUpdate (obstacleDetect st.1 i j r xi yi xp yp).1 i j
          (obstacleDetect st.1 i j r xi yi xp yp).2 st.2.1 st.2.2).2.1,
        (obstacleVelocityUpdate (obstacleDetect st.1 i j r xi yi xp yp).1 i j
          (obstacleDetect st.1 i j r xi yi xp yp).2 st.2.1 st.2.2).2.2) := by
  unfold collideOneObstacle
  dsimp only
  rw [if_neg hbd]

theorem jsLocalOr_none (d : ℚ) : jsLocalOr none d = d := rfl

theorem jsLocalOr_zero (d : ℚ) : jsLocalOr (some 0) d = d := by
  simp [jsLocalOr]

/-- C7 (amended): with `updatePressure` true and the crossed wall's probe
enabled, for one obstacle-loop iteration of `bounceParticleOffObstacles`
(`collideOneObstacle`, with the loop locals `vxPrev`/`vyPrev` carried in
from the earlier iterations of the same call): a collision with a MOVABLE
obstacle whose pre-collision normal velocity is nonzero changes the
accumulator by exactly `m·(v_before − v_after)` (sign convention of the
wall); a movable collision with zero pre-collision normal velocity changes
it by `−2m·v_after` (west/south; `+2m·v_after` east/north), the JS
truthiness test `(vxPrev ? vxPrev : -vx[i])` (md2d.js:1044) discarding the
stored `0`; and a collision with an IMMOVABLE obstacle changes it by
`m·((vxPrev ? vxPrev : −v_after) − v_after)` over the CURRENT loop local
— which equals the claimed `m·(v_before − v_after)` when that local is
still absent or zero, but reads a stale velocity left behind by an earlier
movable collision of the same call otherwise (the locals are assigned only
in the movable branch, md2d.js:1019/1025). -/
theorem C7_probe_impulse (s : Engine) (i j : ℕ) (vxp vyp : Option ℚ)
    (r xi yi x_prev y_prev : ℚ)
    (hhit : obstacleHit s j r xi yi) :
    (crossedWest s j r x_prev → s.obstacleWestProbe j = true →
      ((s.obstacleMassInf j = false → s.vx i ≠ 0 →
        (collideOneObstacle (s, vxp, vyp) i j r xi yi x_prev y_prev true).1.obstacleWProbeValue j =
          s.obstacleWProbeValue j + s.mass i *
            (s.vx i - (collideOneObstacle (s, vxp, vyp) i j r xi yi x_prev y_prev true).1.vx i)) ∧
       (s.obstacleMassInf j = false → s.vx i = 0 →
        (collideOneObstacle (s, vxp, vyp) i j r xi yi x_prev y_prev true).1.obstacleWProbeValue j =
          s.obstacleWProbeValue j -
            2 * s.mass i * (collideOneObstacle (s, vxp, vyp) i j r xi yi x_prev y_prev true).1.vx i) ∧
       (s.obstacleMassInf j = true →
        (collideOneObstacle (s, vxp, vyp) i j r xi yi x_prev y_prev true).1.obstacleWProbeValue j =
          s.obstacleWProbeValue j + s.mass i *
            (jsLocalOr vxp
                (-((collideOneObstacle (s, vxp, vyp) i j r xi yi x_prev y_prev true).1.vx i)) -
              (collideOneObstacle (s, vxp, vyp) i j r xi yi x_prev y_prev true).1.vx i)) ∧
       (s.obstacleMassInf j = true → vxp = none ∨ vxp = some 0 →
        (collideOneObstacle (s, vxp, vyp) i j r xi yi x_prev y_prev true).1.obstacleWProbeValue j =
          s.obstacleWProbeValue j + s.mass i *
            (s.vx i - (collideOneObstacle (s, vxp, vyp) i j r xi yi x_prev y_prev true).1.vx i)))) ∧
    (¬ crossedWest s j r x_prev → crossedEast s j r x_prev →
      s.obstacleEastProbe j = true →
      ((s.obstacleMassInf j = false → s.vx i ≠ 0 →
        (collideOneObstacle (s, vxp, vyp) i j r xi yi x_prev y_prev true).1.obstacleEProbeValue j =
          s.obstacleEProbeValue j + s.mass i *
            ((collideOneObstacle (s, vxp, vyp) i j r xi yi x_prev y_prev true).1.vx i - s.vx i)) ∧
       (s.obstacleMassInf j = false → s.vx i = 0 →
        (collideOneObstacle (s, vxp, vyp) i j r xi yi x_prev y_prev true).1.obstacleEProbeValue j =
          s.obstacleEProbeValue j +
            2 * s.mass i * (collideOneObstacle (s, vxp, vyp) i j r xi yi x_prev y_prev true).1.vx i) ∧
       (s.obstacleMassInf j = true →
        (collideOneObstacle (s, vxp, vyp) i j r xi yi x_prev y_prev true).1.obstacleEProbeValue j =
          s.obstacleEProbeValue j + s.mass i *
            ((collideOneObstacle (s, vxp, vyp) i j r xi yi x_prev y_prev true).1.vx i -
              jsLocalOr vxp
                (-((collideOneObstacle (s, vxp, vyp) i j r xi yi x_prev y_prev true).1.vx i)))) ∧
       (s.obstacleMassInf j = true → vxp = none ∨ vxp = some 0 →
        (collideOneObstacle (s, vxp, vyp) i j r xi yi x_prev y_prev true).1.obstacleEProbeValue j =
          s.obstacleEProbeValue j + s.mass i *
            ((collideOneObstacle (s, vxp, vyp) i j r xi yi x_prev y_prev true).1.vx i - s.vx i)))) ∧
    (¬ crossedWest s j r x_prev → ¬ crossedEast s j r x_prev →
      crossedSouth s j r y_prev → s.obstacleSouthProbe j = true →
      ((s.obstacleMassInf j = false → s.vy i ≠ 0 →
        (collideOneObstacle (s, vxp, vyp) i j r xi yi x_prev y_prev true).1.obstacleSProbeValue j =
          s.obstacleSProbeValue j + s.mass i *
            (s.vy i - (collideOneObstacle (s, vxp, vyp) i j r xi yi x_prev y_prev true).1.vy i)) ∧
       (s.obstacleMassInf j = false → s.vy i = 0 →
        (collideOneObstacle (s, vxp, vyp) i j r xi yi x_prev y_prev true).1.obstacleSProbeValue j =
          s.obstacleSProbeValue j -
            2 * s.mass i * (collideOneObstacle (s, vxp, vyp) i j r xi yi x_prev y_prev true).1.vy i) ∧
       (s.obstacleMassInf j = true →
        (collideOneObstacle (s, vxp, vyp) i j r xi yi x_prev y_prev true).1.obstacleSProbeValue j =
          s.obstacleSProbeValue j + s.mass i *
            (jsLocalOr vyp
                (-((collideOneObstacle (s, vxp, vyp) i j r xi yi x_prev y_prev true).1.vy i)) -
              (collideOneObstacle (s, vxp, vyp) i j r xi yi x_prev y_prev true).1.vy i)) ∧
       (s.obstacleMassInf j = true → vyp = none ∨ vyp = some 0 →
        (collideOneObstacle (s, vxp, vyp) i j r xi yi x_prev y_prev true).1.obstacleSProbeValue j =
          s.obstacleSProbeValue j + s.mass i *
            (s.vy i - (collideOneObstacle (s, vxp, vyp) i j r xi yi x_prev y_prev true).1.vy i)))) ∧
    (¬ crossedWest s j r x_prev → ¬ crossedEast s j r x_prev →
      ¬ crossedSouth s j r y_prev → crossedNorth s j r y_prev →
      s.obstacleNorthProbe j = true →
      ((s.obstacleMassInf j = false → s.vy i ≠ 0 →
        (collideOneObstacle (s, vxp, vyp) i j r xi yi x_prev y_prev true).1.obstacleNProbeValue j =
          s.obstacleNProbeValue j + s.mass i *
            ((collideOneObstacle (s, vxp, vyp) i j r xi yi x_prev y_prev true).1.vy i - s.vy i)) ∧
       (s.obstacleMassInf j = false → s.vy i = 0 →
        (collideOneObstacle (s, vxp, vyp) i j r xi yi x_prev y_prev true).1.obstacleNProbeValue j =
          s.obstacleNProbeValue j +
            2 * s.mass i * (collideOneObstacle (s, vxp, vyp) i j r xi yi x_prev y_prev true).1.vy i) ∧
       (s.obstacleMassInf j = true →
        (collideOneObstacle (s, vxp, vyp) i j r xi yi x_prev y_prev true).1.obstacleNProbeValue j =
          s.obstacleNProbeValue j + s.mass i *
            ((collideOneObstacle (s, vxp, vyp) i j r xi yi x_prev y_prev true).1.vy i -
              jsLocalOr vyp
                (-((collideOneObstacle (s, vxp, vyp) i j r xi yi x_prev y_prev true).1.vy i)))) ∧
       (s.obstacleMassInf j = true → vyp = none ∨ vyp = some 0 →
        (collideOneObstacle (s, vxp, vyp) i j r xi yi x_prev y_prev true).1.obstacleNProbeValue j =
          s.obstacleNProbeValue j + s.mass i *
            ((collideOneObstacle (s, vxp, vyp) i j r xi yi x_prev y_prev true).1.vy i - s.vy i)))) := by
  obtain ⟨hvx, hvy, hpx, hpy, hm, hoM, hoI, hoVX, hoVY, hWp, hEp, hSp, hNp,
    hWv, hEv, hSv, hNv⟩ :=
    obstacleDetect_frame s i j r xi yi x_prev y_prev
  refine ⟨?_, ?_, ?_, ?_⟩
  · -- west wall
    intro hw hp
    have hbd : (obstacleDetect s i j r xi yi x_prev y_prev).2 = 1 := by
      rw [obstacleDetect_west s i j r xi yi x_prev y_prev hhit hw]
    rw [collideOne_eq (s, vxp, vyp) i j r xi yi x_prev y_prev true
      (by dsimp only; rw [hbd]; norm_num)]
    dsimp only
    rw [hbd]
    refine ⟨?_, ?_, ?_, ?_⟩
    · intro hmov hvb
      rw [obstacleVelocityUpdate_x_movable _ i j 1 vxp vyp (by rw [hoI]; exact hmov)
        (by norm_num)]
      rw [obstaclePressureUpdate_west _ i j _ vyp (by dsimp only; rw [hWp]; exact hp)]
      simp only [hvx, hm, hoM, hoVX, hpx, hWv, jsLocalOr, Function.update_same, if_neg hvb]
    · intro hmov hvb
      rw [obstacleVelocityUpdate_x_movable _ i j 1 vxp vyp (by rw [hoI]; exact hmov)
        (by norm_num)]
      rw [obstaclePressureUpdate_west _ i j _ vyp (by dsimp only; rw [hWp]; exact hp)]
      simp only [hvx, hm, hoM, hoVX, hpx, hWv, jsLocalOr, Function.update_same, if_pos hvb]
      ring
    · intro himm
      rw [obstacleVelocityUpdate_x_immovable _ i j 1 vxp vyp (by rw [hoI]; exact himm)
        (by norm_num)]
      rw [obstaclePressureUpdate_west _ i j vxp vyp (by dsimp only; rw [hWp]; exact hp)]
      simp only [hvx, hm, hWv, Function.update_same]
    · intro himm hcl
      rw [obstacleVelocityUpdate_x_immovable _ i j 1 vxp vyp (by rw [hoI]; exact himm)
        (by norm_num)]
      rw [obstaclePressureUpdate_west _ i j vxp vyp (by dsimp only; rw [hWp]; exact hp)]
      rcases hcl with h0 | h0
      · subst h0
        simp only [jsLocalOr_none, hvx, hm, hWv, Function.update_same]
        ring
      · subst h0
        simp only [jsLocalOr_zero, hvx, hm, hWv, Function.update_same]
        ring
  · -- east wall
    intro hnw he hp
    have hbd : (obstacleDetect s i j r xi yi x_prev y_prev).2 = 2 := by
      rw [obstacleDetect_east s i j r xi yi x_prev y_prev hhit hnw he]
    rw [collideOne_eq (s, vxp, vyp) i j r xi yi x_prev y_prev true
      (by dsimp only; rw [hbd]; norm_num)]
    dsimp only
    rw [hbd]
    refine ⟨?_, ?_, ?_, ?_⟩
    · intro hmov hvb
      rw [obstacleVelocityUpdate_x_movable _ i j 2 vxp vyp (by rw [hoI]; exact hmov)
        (by norm_num)]
      rw [obstaclePressureUpdate_east _ i j _ vyp (by dsimp only; rw [hEp]; exact hp)]
      simp only [hvx, hm, hoM, hoVX, hpx, hEv, jsLocalOr, Function.update_same, if_neg hvb]
    · intro hmov hvb
      rw [obstacleVelocityUpdate_x_movable _ i j 2 vxp vyp (by rw [hoI]; exact hmov)
        (by norm_num)]
      rw [obstaclePressureUpdate_east _ i j _ vyp (by dsimp only; rw [hEp]; exact hp)]
      simp only [hvx, hm, hoM, hoVX, hpx, hEv, jsLocalOr, Function.update_same, if_pos hvb]
      ring
    · intro himm
      rw [obstacleVelocityUpdate_x_immovable _ i j 2 vxp vyp (by rw [hoI]; exact himm)
        (by norm_num)]
      rw [obstaclePressureUpdate_east _ i j vxp vyp (by dsimp only; rw [hEp]; exact hp)]
      simp only [hvx, hm, hEv, Function.update_same]
    · intro himm hcl
      rw [obstacleVelocityUpdate_x_immovable _ i j 2 vxp vyp (by rw [hoI]; exact himm)
        (by norm_num)]
      rw [obstaclePressureUpdate_east _ i j vxp vyp (by dsimp only; rw [hEp]; exact hp)]
      rcases hcl with h0 | h0
      · subst h0
        simp only [jsLocalOr_none, hvx, hm, hEv, Function.update_same]
        ring
      · subst h0
        simp only [jsLocalOr_zero, hvx, hm, hEv, Function.update_same]
        ring
  · -- south wall
    intro hnw hne hs hp
    have hbd : (obstacleDetect s i j r xi yi x_prev y_prev).2 = -1 := by
      rw [obstacleDetect_south s i j r xi yi x_prev y_prev hhit hnw hne hs]
    rw [collideOne_eq (s, vxp, vyp) i j r xi yi x_prev y_prev true
      (by dsimp only; rw [hbd]; norm_num)]
    dsimp only
    rw [hbd]
    refine ⟨?_, ?_, ?_, ?_⟩
    · intro hmov hvb
      rw [obstacleVelocityUpdate_y_movable _ i j (-1) vxp vyp (by rw [hoI]; exact hmov)
        (by norm_num)]
      rw [obstaclePressureUpdate_south _ i j vxp _ (by dsimp only; rw [hSp]; exact hp)]
      simp only [hvy, hm, hoM, hoVY, hpy, hSv, jsLocalOr, Function.update_same, if_neg hvb]
    · intro hmov hvb
      rw [obstacleVelocityUpdate_y_movable _ i j (-1) vxp vyp (by rw [hoI]; exact hmov)
        (by norm_num)]
      rw [obstaclePressureUpdate_south _ i j vxp _ (by dsimp only; rw [hSp]; exact hp)]
      simp only [hvy, hm, hoM, hoVY, hpy, hSv, jsLocalOr, Function.update_same, if_pos hvb]
      ring
    · intro himm
      rw [obstacleVelocityUpdate_y_immovable _ i j (-1) vxp vyp (by rw [hoI]; exact himm)
        (by norm_num)]
      rw [obstaclePressureUpdate_south _ i j vxp vyp (by dsimp only; rw [hSp]; exact hp)]
      simp only [hvy, hm, hSv, Function.update_same]
    · intro himm hcl
      rw [obstacleVelocityUpdate_y_immovable _ i j (-1) vxp vyp (by rw [hoI]; exact himm)
        (by norm_num)]
      rw [obstaclePressureUpdate_south _ i j vxp vyp (by dsimp only; rw [hSp]; exact hp)]
      rcases hcl with h0 | h0
      · subst h0
        simp only [jsLocalOr_none, hvy, hm, hSv, Function.update_same]
        ring
      · subst h0
        simp only [jsLocalOr_zero, hvy, hm, hSv, Function.update_same]
        ring
  · -- north wall
    intro hnw hne hns hno hp
    have hbd : (obstacleDetect s i j r xi yi x_prev y_prev).2 = -2 := by
      rw [obstacleDetect_north s i j r xi yi x_prev y_prev hhit hnw hne hns hno]
    rw [collideOne_eq (s, vxp, vyp) i j r xi yi x_prev y_prev true
      (by dsimp only; rw [hbd]; norm_num)]
    dsimp only
    rw [hbd]
    refine ⟨?_, ?_, ?_, ?_⟩
    · intro hmov hvb
      rw [obstacleVelocityUpdate_y_movable _ i j (-2) vxp vyp (by rw [hoI]; exact hmov)
        (by norm_num)]
      rw [obstaclePressureUpdate_north _ i j vxp _ (by dsimp only; rw [hNp]; exact hp)]
      simp only [hvy, hm, hoM, hoVY, hpy, hNv, jsLocalOr, Function.update_same, if_neg hvb]
    · intro hmov hvb
      rw [obstacleVelocityUpdate_y_movable _ i j (-2) vxp vyp (by rw [hoI]; exact hmov)
        (by norm_num)]
      rw [obstaclePressureUpdate_north _ i j vxp _ (by dsimp only; rw [hNp]; exact hp)]
      simp only [hvy, hm, hoM, hoVY, hpy, hNv, jsLocalOr, Function.update_same, if_pos hvb]
      ring
    · intro himm
      rw [obstacleVelocityUpdate_y_immovable _ i j (-2) vxp vyp (by rw [hoI]; exact himm)
        (by norm_num)]
      rw [obstaclePressureUpdate_north _ i j vxp vyp (by dsimp only; rw [hNp]; exact hp)]
      simp only [hvy, hm, hNv, Function.update_same]
    · intro himm hcl
      rw [obstacleVelocityUpdate_y_immovable _ i j (-2) vxp vyp (by rw [hoI]; exact himm)
        (by norm_num)]
      rw [obstaclePressureUpdate_north _ i j vxp vyp (by dsimp only; rw [hNp]; exact hp)]
      rcases hcl with h0 | h0
      · subst h0
        simp only [jsLocalOr_none, hvy, hm, hNv, Function.update_same]
        ring
      · subst h0
        simp only [jsLocalOr_zero, hvy, hm, hNv, Function.update_same]
        ring

/-- Concrete state for claim C7: a resting atom (`vx = 0`, mass 1) at
`(1.5, 1)`, and one movable obstacle (mass 1, `vx = -1`, west probe on) of
width 1/height 10 that just moved west from `x = 2` to `x = 1`, engulfing
the atom; the previous atom position `(1.5, 1)` lies on the west side of the
obstacle's previous footprint. -/
def engineC7 : Engine :=
  { N := 1, N_obstacles := 1
    mass := fun _ => 1
    x := fun _ => 3/2, y := fun _ => 1
    obstacleX := fun _ => 1, obstacleXPrev := fun _ => 2
    obstacleWidth := fun _ => 1, obstacleHeight := fun _ => 10
    obstacleVX := fun _ => -1
    obstacleMass := fun _ => 1
    obstacleWestProbe := fun _ => true }

/-- C7 counterexample: a west-wall collision with pre-collision normal
velocity `0` against a movable obstacle.  The elastic collision gives the
atom `v_after = -1`, so the claim demands an impulse of
`m·(v_before − v_after) = 1·(0 − (−1)) = 1`; the code accumulates `2`. -/
theorem C7_counterexample_zero_velocity :
    engineC7.vx 0 = 0 ∧
    engineC7.obstacleWProbeValue 0 = 0 ∧
    (bounceParticleOffObstacles engineC7 0 (3/2) 1 true).vx 0 = -1 ∧
    (bounceParticleOffObstacles engineC7 0 (3/2) 1 true).obstacleWProbeValue 0 = 2 ∧
    engineC7.mass 0 *
      (engineC7.vx 0 - (bounceParticleOffObstacles engineC7 0 (3/2) 1 true).vx 0) = 1 ∧
    (2 : ℚ) ≠ 1 := by
  have hhit : obstacleHit engineC7 0 (engineC7.radius 0) (engineC7.x 0) (engineC7.y 0) := by
    norm_num [obstacleHit, engineC7]
  have hw : crossedWest engineC7 0 (engineC7.radius 0) (3/2) := by
    norm_num [crossedWest, engineC7]
  obtain ⟨hvx, hvy, hpx, hpy, hm, hoM, hoI, hoVX, hoVY, hWp, hEp, hSp, hNp,
    hWv, hEv, hSv, hNv⟩ :=
    obstacleDetect_frame engineC7 0 0 (engineC7.radius 0) (engineC7.x 0) (engineC7.y 0)
      (3/2) 1
  have hone : bounceParticleOffObstacles engineC7 0 (3/2) 1 true =
      (collideOneObstacle (engineC7, none, none) 0 0 (engineC7.radius 0)
        (engineC7.x 0) (engineC7.y 0) (3/2) 1 true).1 :=
    bounceObstacles_one engineC7 0 (3/2) 1 true rfl
  have hbd : (obstacleDetect engineC7 0 0 (engineC7.radius 0) (engineC7.x 0)
      (engineC7.y 0) (3/2) 1).2 = 1 := by
    rw [obstacleDetect_west engineC7 0 0 (engineC7.radius 0) (engineC7.x 0)
      (engineC7.y 0) (3/2) 1 hhit hw]
  rw [hone, collideOne_eq (engineC7, none, none) 0 0 (engineC7.radius 0) (engineC7.x 0)
    (engineC7.y 0) (3/2) 1 true (by dsimp only; rw [hbd]; norm_num)]
  dsimp only
  rw [hbd]
  rw [obstacleVelocityUpdate_x_movable _ 0 0 1 none none (by rw [hoI]; rfl) (by norm_num)]
  rw [obstaclePressureUpdate_west _ 0 0 _ none (by dsimp only; rw [hWp]; rfl)]
  refine ⟨rfl, rfl, ?_, ?_, ?_, by norm_num⟩
  · simp only [Function.update_same, hvx, hm, hoM, hoVX, hpx]
    norm_num [engineC7]
  · simp only [Function.update_same, hvx, hm, hoM, hoVX, hpx, hWv, jsLocalOr]
    norm_num [engineC7]
  · simp only [Function.update_same, hvx, hm, hoM, hoVX, hpx]
    norm_num [engineC7]

/-- C7 witness: the amended theorem applied at a concrete immovable-obstacle
west collision (atom at `(1.5, 1)` moving east at `vx = 1/2` into a wall-like
obstacle) with the loop locals still `undefined` (clean), whose probe
accumulates exactly `m·(v_before − v_after)`. -/
def engineC7b : Engine :=
  { N := 1, N_obstacles := 1
    mass := fun _ => 1
    x := fun _ => 3/2, y := fun _ => 1
    vx := fun _ => 1/2
    obstacleX := fun _ => 1, obstacleXPrev := fun _ => 2
    obstacleWidth := fun _ => 1, obstacleHeight := fun _ => 10
    obstacleMassInf := fun _ => true
    obstacleWestProbe := fun _ => true }

theorem C7_probe_impulse_witness :
    obstacleHit engineC7b 0 (engineC7b.radius 0) (engineC7b.x 0) (engineC7b.y 0) ∧
    crossedWest engineC7b 0 (engineC7b.radius 0) (3/2) ∧
    engineC7b.obstacleWestProbe 0 = true ∧
    engineC7b.obstacleMassInf 0 = true ∧
    ((none : Option ℚ) = none ∨ (none : Option ℚ) = some 0) ∧
    (collideOneObstacle (engineC7b, none, none) 0 0 (engineC7b.radius 0)
        (engineC7b.x 0) (engineC7b.y 0) (3/2) 1 true).1.obstacleWProbeValue 0 =
      engineC7b.obstacleWProbeValue 0 +
        engineC7b.mass 0 *
          (engineC7b.vx 0 -
            (collideOneObstacle (engineC7b, none, none) 0 0 (engineC7b.radius 0)
              (engineC7b.x 0) (engineC7b.y 0) (3/2) 1 true).1.vx 0) :=
  ⟨by norm_num [obstacleHit, engineC7b], by norm_num [crossedWest, engineC7b], rfl, rfl,
    Or.inl rfl,
    (((C7_probe_impulse engineC7b 0 0 none none (engineC7b.radius 0) (engineC7b.x 0)
        (engineC7b.y 0) (3/2) 1 (by norm_num [obstacleHit, engineC7b])).1
      (by norm_num [crossedWest, engineC7b]) rfl).2.2.2 rfl (Or.inl rfl))⟩

-- ####################################################################
-- Position update and divergence guard (md2d.js lines 1475-1501), claim C5
-- ####################################################################

/-- One atom's drift-and-bounce without the divergence guard (the claim-side
description of a successful substep): `x += vx·dt`, `y += vy·dt`, bounce off
walls, then off obstacles with pressure updating enabled — `xPrev`/`yPrev`
being the pre-drift coordinates. -/
def driftBounceOne (t : Engine) (i : ℕ) : Engine :=
  bounceParticleOffObstacles
    (bounceParticleOffWalls
      { t with x := Function.update t.x i (t.x i + t.vx i * t.dt)
               y := Function.update t.y i (t.y i + t.vy i * t.dt) } i)
    i (t.x i) (t.y i) true

/-- The loop of `updateParticlesPosition` (md2d.js:1480): the remaining `n`
atoms are `N - n, ..., N - 1`; each is drifted, checked for divergence
(`isNaN` is unrepresentable over `ℚ`, the magnitude checks are exact), then
bounced.  A divergent coordinate aborts the whole loop with the source's
error. -/
def updatePPAux (N : ℕ) : ℕ → Engine → Except String Engine
  | 0, t => Except.ok t
  | n + 1, t =>
      let i := N - (n + 1)
      let xPrev := t.x i
      let yPrev := t.y i
      let t1 := { t with x := Function.update t.x i (t.x i + t.vx i * t.dt)
                         y := Function.update t.y i (t.y i + t.vy i * t.dt) }
      if 100 * t.sizeX < |t1.x i| ∨ 100 * t.sizeY < |t1.y i| then
        Except.error ("Model has diverged!")
      else
        updatePPAux N n
          (bounceParticleOffObstacles (bounceParticleOffWalls t1 i) i xPrev yPrev true)

/-- `updateParticlesPosition()` (md2d.js:1475). -/
def updateParticlesPosition (s : Engine) : Except String Engine :=
  updatePPAux s.N s.N s

/-- The guard-free loop (claim side): what the substep does when no
coordinate diverges. -/
def driftAllAux (N : ℕ) : ℕ → Engine → Engine
  | 0, t => t
  | n + 1, t => driftAllAux N n (driftBounceOne t (N - (n + 1)))

/-- The divergence condition of claim C5 for atom `i`, over the pre-call
state: the drifted coordinate exceeds 100 times the domain extent in
magnitude (`NaN`, the other disjunct of the source's test, has no `ℚ`
counterpart). -/
def divergesAt (s : Engine) (i : ℕ) : Prop :=
  100 * s.sizeX < |s.x i + s.vx i * s.dt| ∨ 100 * s.sizeY < |s.y i + s.vy i * s.dt|

/-- Atom `k`'s drift-relevant fields agree between `s` and `t`. -/
def atomUntouched (s t : Engine) (k : ℕ) : Prop :=
  t.x k = s.x k ∧ t.y k = s.y k ∧ t.vx k = s.vx k ∧ t.vy k = s.vy k

/-- The loop-invariant meta fields agree between `s` and `t`. -/
def metaUntouched (s t : Engine) : Prop :=
  t.N = s.N ∧ t.dt = s.dt ∧ t.sizeX = s.sizeX ∧ t.sizeY = s.sizeY

theorem bounceWalls_untouched (s : Engine) (i k : ℕ) (hk : k ≠ i) :
    metaUntouched s (bounceParticleOffWalls s i) ∧
    atomUntouched s (bounceParticleOffWalls s i) k := by
  unfold bounceParticleOffWalls
  dsimp only
  split_ifs <;>
    exact ⟨⟨rfl, rfl, rfl, rfl⟩,
      by simp [atomUntouched, Function.update_noteq hk]⟩

theorem obstacleDetect_untouched (s : Engine) (i j : ℕ) (r xi yi xp yp : ℚ)
    (k : ℕ) (hk : k ≠ i) :
    metaUntouched s (obstacleDetect s i j r xi yi xp yp).1 ∧
    atomUntouched s (obstacleDetect s i j r xi yi xp yp).1 k := by
  unfold obstacleDetect
  dsimp only
  split_ifs <;>
    exact ⟨⟨rfl, rfl, rfl, rfl⟩,
      by simp [atomUntouched, Function.update_noteq hk]⟩

theorem obstacleVelocityUpdate_untouched (s : Engine) (i j : ℕ) (bd : ℤ)
    (vxPrev vyPrev : Option ℚ) (k : ℕ) (hk : k ≠ i) :
    metaUntouched s (obstacleVelocityUpdate s i j bd vxPrev vyPrev).1 ∧
    atomUntouched s (obstacleVelocityUpdate s i j bd vxPrev vyPrev).1 k := by
  unfold obstacleVelocityUpdate
  dsimp only
  split_ifs <;>
    exact ⟨⟨rfl, rfl, rfl, rfl⟩,
      by simp [atomUntouched, Function.update_noteq hk]⟩

theorem obstaclePressureUpdate_untouched (s : Engine) (i j : ℕ) (bd : ℤ)
    (vxPrev vyPrev : Option ℚ) (up : Bool) (k : ℕ) :
    metaUntouched s (obstaclePressureUpdate s i j bd vxPrev vyPrev up) ∧
    atomUntouched s (obstaclePressureUpdate s i j bd vxPrev vyPrev up) k := by
  unfold obstaclePressureUpdate
  dsimp only
  split_ifs <;> exact ⟨⟨rfl, rfl, rfl, rfl⟩, ⟨rfl, rfl, rfl, rfl⟩⟩

theorem collideOne_untouched (st : Engine × Option ℚ × Option ℚ) (i j : ℕ)
    (r xi yi xp yp : ℚ) (up : Bool) (k : ℕ) (hk : k ≠ i) :
    metaUntouched st.1 (collideOneObstacle st i j r xi yi xp yp up).1 ∧
    atomUntouched st.1 (collideOneObstacle st i j r xi yi xp yp up).1 k := by
  unfold collideOneObstacle
  dsimp only
  obtain ⟨⟨d1, d2, d3, d4⟩, e1, e2, e3, e4⟩ :=
    obstacleDetect_untouched st.1 i j r xi yi xp yp k hk
  split_ifs with h
  · exact ⟨⟨d1, d2, d3, d4⟩, e1, e2, e3, e4⟩
  · obtain ⟨⟨f1, f2, f3, f4⟩, g1, g2, g3, g4⟩ :=
      obstacleVelocityUpdate_untouched (obstacleDetect st.1 i j r xi yi xp yp).1 i j
        (obstacleDetect st.1 i j r xi yi xp yp).2 st.2.1 st.2.2 k hk
    obtain ⟨⟨p1, p2, p3, p4⟩, q1, q2, q3, q4⟩ :=
      obstaclePressureUpdate_untouched
        (obstacleVelocityUpdate (obstacleDetect st.1 i j r xi yi xp yp).1 i j
          (obstacleDetect st.1 i j r xi yi xp yp).2 st.2.1 st.2.2).1 i j
        (obstacleDetect st.1 i j r xi yi xp yp).2
        (obstacleVelocityUpdate (obstacleDetect st.1 i j r xi yi xp yp).1 i j
          (obstacleDetect st.1 i j r xi yi xp yp).2 st.2.1 st.2.2).2.1
        (obstacleVelocityUpdate (obstacleDetect st.1 i j r xi yi xp yp).1 i j
          (obstacleDetect st.1 i j r xi yi xp yp).2 st.2.1 st.2.2).2.2 up k
    exact ⟨⟨(p1.trans f1).trans d1, (p2.trans f2).trans d2, (p3.trans f3).trans d3,
        (p4.trans f4).trans d4⟩,
      (q1.trans g1).trans e1, (q2.trans g2).trans e2, (q3.trans g3).trans e3,
      (q4.trans g4).trans e4⟩

theorem bounceObstacles_untouched (s : Engine) (i : ℕ) (xp yp : ℚ) (up : Bool)
    (k : ℕ) (hk : k ≠ i) :
    metaUntouched s (bounceParticleOffObstacles s i xp yp up) ∧
    atomUntouched s (bounceParticleOffObstacles s i xp yp up) k := by
  unfold bounceParticleOffObstacles
  split_ifs
  · exact ⟨⟨rfl, rfl, rfl, rfl⟩, ⟨rfl, rfl, rfl, rfl⟩⟩
  · dsimp only
    generalize s.N_obstacles = n
    induction n with
    | zero => exact ⟨⟨rfl, rfl, rfl, rfl⟩, ⟨rfl, rfl, rfl, rfl⟩⟩
    | succ m ih =>
        rw [iterOver]
        obtain ⟨⟨m1, m2, m3, m4⟩, a1, a2, a3, a4⟩ := ih
        obtain ⟨⟨n1, n2, n3, n4⟩, b1, b2, b3, b4⟩ :=
          collideOne_untouched
            (iterOver m
              (fun j st => collideOneObstacle st i j (s.radius i) (s.x i) (s.y i) xp yp up)
              (s, none, none)) i m (s.radius i) (s.x i) (s.y i) xp yp up k hk
        exact ⟨⟨n1.trans m1, n2.trans m2, n3.trans m3, n4.trans m4⟩,
          b1.trans a1, b2.trans a2, b3.trans a3, b4.trans a4⟩

/-- Processing one atom leaves every other atom's drift data and the loop
meta data unchanged. -/
theorem driftBounceOne_untouched (t : Engine) (i k : ℕ) (hk : k ≠ i) :
    metaUntouched t (driftBounceOne t i) ∧ atomUntouched t (driftBounceOne t i) k := by
  unfold driftBounceOne
  obtain ⟨⟨m1, m2, m3, m4⟩, a1, a2, a3, a4⟩ :=
    bounceWalls_untouched
      { t with x := Function.update t.x i (t.x i + t.vx i * t.dt)
               y := Function.update t.y i (t.y i + t.vy i * t.dt) } i k hk
  obtain ⟨⟨n1, n2, n3, n4⟩, b1, b2, b3, b4⟩ :=
    bounceObstacles_untouched
      (bounceParticleOffWalls
        { t with x := Function.update t.x i (t.x i + t.vx i * t.dt)
                 y := Function.update t.y i (t.y i + t.vy i * t.dt) } i)
      i (t.x i) (t.y i) true k hk
  refine ⟨⟨n1.trans m1, n2.trans m2, n3.trans m3, n4.trans m4⟩, ?_, ?_, ?_, ?_⟩
  · rw [b1, a1]
    exact Function.update_noteq hk _ _
  · rw [b2, a2]
    exact Function.update_noteq hk _ _
  · rw [b3, a3]
  · rw [b4, a4]

/-- Unfolding equation for one iteration of the loop. -/
theorem updatePPAux_succ (N n : ℕ) (t : Engine) :
    updatePPAux N (n + 1) t =
      if 100 * t.sizeX <
            |Function.update t.x (N - (n + 1))
              (t.x (N - (n + 1)) + t.vx (N - (n + 1)) * t.dt) (N - (n + 1))| ∨
          100 * t.sizeY <
            |Function.update t.y (N - (n + 1))
              (t.y (N - (n + 1)) + t.vy (N - (n + 1)) * t.dt) (N - (n + 1))| then
        Except.error ("Model has diverged!")
      else updatePPAux N n (driftBounceOne t (N - (n + 1))) := rfl

/-- The loop of `updateParticlesPosition`, characterized: it aborts with the
divergence error exactly when one of the remaining atoms diverges (judged on
the pre-call state — processing one atom never changes another atom's drift
data), and otherwise equals the guard-free loop. -/
theorem updatePPAux_spec (s : Engine) :
    ∀ (n : ℕ) (t : Engine), n ≤ s.N → metaUntouched s t →
    (∀ k, s.N - n ≤ k → atomUntouched s t k) →
    ((updatePPAux s.N n t = Except.error ("Model has diverged!") ↔
       ∃ k, s.N - n ≤ k ∧ k < s.N ∧ divergesAt s k) ∧
     ((∀ k, s.N - n ≤ k → k < s.N → ¬ divergesAt s k) →
       updatePPAux s.N n t = Except.ok (driftAllAux s.N n t))) := by
  intro n
  induction n with
  | zero =>
      intro t _ _ _
      constructor
      · constructor
        · intro h
          exact absurd h (by simp [updatePPAux])
        · rintro ⟨k, hk1, hk2, _⟩
          omega
      · intro _
        rfl
  | succ n ih =>
      intro t hn ⟨hN, hdt, hsX, hsY⟩ hat
      obtain ⟨hx, hy, hvx, hvy⟩ := hat (s.N - (n + 1)) le_rfl
      have hcond : (100 * t.sizeX <
            |Function.update t.x (s.N - (n + 1))
              (t.x (s.N - (n + 1)) + t.vx (s.N - (n + 1)) * t.dt) (s.N - (n + 1))| ∨
          100 * t.sizeY <
            |Function.update t.y (s.N - (n + 1))
              (t.y (s.N - (n + 1)) + t.vy (s.N - (n + 1)) * t.dt) (s.N - (n + 1))|) ↔
          divergesAt s (s.N - (n + 1)) := by
        rw [Function.update_same, Function.update_same, hx, hy, hvx, hvy, hdt, hsX, hsY]
        rfl
      by_cases hdiv : divergesAt s (s.N - (n + 1))
      · have hrun : updatePPAux s.N (n + 1) t = Except.error ("Model has diverged!") := by
          rw [updatePPAux_succ]
          rw [if_pos (hcond.mpr hdiv)]
        constructor
        · rw [hrun]
          simp only [true_iff]
          exact ⟨s.N - (n + 1), le_rfl, by omega, hdiv⟩
        · intro hnone
          exact absurd hdiv (hnone (s.N - (n + 1)) le_rfl (by omega))
      · have hrun : updatePPAux s.N (n + 1) t =
            updatePPAux s.N n (driftBounceOne t (s.N - (n + 1))) := by
          rw [updatePPAux_succ]
          rw [if_neg (fun hc => hdiv (hcond.mp hc))]
        have hframe2 : metaUntouched s (driftBounceOne t (s.N - (n + 1))) ∧
            ∀ k, s.N - n ≤ k → atomUntouched s (driftBounceOne t (s.N - (n + 1))) k := by
          obtain ⟨⟨m1, m2, m3, m4⟩, _⟩ :=
            driftBounceOne_untouched t (s.N - (n + 1)) (s.N - (n + 1) + 1) (by omega)
          refine ⟨⟨m1.trans hN, m2.trans hdt, m3.trans hsX, m4.trans hsY⟩, ?_⟩
          intro k hk
          obtain ⟨_, c1, c2, c3, c4⟩ :=
            driftBounceOne_untouched t (s.N - (n + 1)) k (by omega)
          obtain ⟨d1, d2, d3, d4⟩ := hat k (by omega)
          exact ⟨c1.trans d1, c2.trans d2, c3.trans d3, c4.trans d4⟩
        obtain ⟨he, hok⟩ := ih (driftBounceOne t (s.N - (n + 1))) (by omega)
          hframe2.1 hframe2.2
        constructor
        · rw [hrun, he]
          constructor
          · rintro ⟨k, hk1, hk2, hk3⟩
            exact ⟨k, by omega, hk2, hk3⟩
          · rintro ⟨k, hk1, hk2, hk3⟩
            refine ⟨k, ?_, hk2, hk3⟩
            rcases Nat.lt_or_ge k (s.N - n) with hlt | hge
            · have : k = s.N - (n + 1) := by omega
              rw [this] at hk3
              exact absurd hk3 hdiv
            · exact hge
        · intro hnone
          rw [hrun, hok (fun k hk1 hk2 => hnone k (by omega) hk2)]
          rfl

/-- C5: `updateParticlesPosition` throws the source's divergence error
exactly when some atom's drifted coordinate exceeds 100 times the
corresponding domain extent in magnitude (the `isNaN` disjunct of the
source's test has no counterpart over exact rationals), and otherwise
performs, for each atom in order, the drift followed by
`bounceParticleOffWalls` and then `bounceParticleOffObstacles` with pressure
updating enabled. -/
theorem C5_updateParticlesPosition (s : Engine) :
    (updateParticlesPosition s = Except.error ("Model has diverged!") ↔
      ∃ k, k < s.N ∧ divergesAt s k) ∧
    ((∀ k, k < s.N → ¬ divergesAt s k) →
      updateParticlesPosition s = Except.ok (driftAllAux s.N s.N s)) := by
  obtain ⟨he, hok⟩ := updatePPAux_spec s s.N s le_rfl ⟨rfl, rfl, rfl, rfl⟩
    (fun k _ => ⟨rfl, rfl, rfl, rfl⟩)
  constructor
  · rw [show updateParticlesPosition s = updatePPAux s.N s.N s from rfl, he]
    constructor
    · rintro ⟨k, _, hk2, hk3⟩
      exact ⟨k, hk2, hk3⟩
    · rintro ⟨k, hk2, hk3⟩
      exact ⟨k, by omega, hk2, hk3⟩
  · intro hnone
    exact hok fun k _ hk2 => hnone k hk2

-- ####################################################################
-- External modules bundle; thermostat (md2d.js lines 60-85, 717-768,
-- 1560-1584), claim C4
-- ####################################################################

/-- Modelled from the spec: the engine's external dependencies that are not
in the repository snapshot.  `accels` stands for the whole
force-accumulation step `updateParticlesAccelerations` (md2d.js:1391), which
overwrites `ax`/`ay` as a function of the state through the
Lennard-Jones/Coulomb/bonded kernels and the cell/neighbor-list modules
(`./potentials`, `./cell-list`, `./neighbor-list`); `jsSqrt` stands for the
JS builtin `Math.sqrt`; `ljRadius` stands for `lennardJones.radius` of the
`./potentials` module; `mwToJoule` and `kBJoules` stand for
`constants.convert(·, MW_ENERGY_UNIT → JOULE)` and
`BOLTZMANN_CONSTANT_IN_JOULES` of the `./constants` module.  The theorems
below hold for every value of this bundle (plus, where needed, an explicit
hypothesis such as the square root being exact). -/
structure Ext where
  accels : Engine → (ℕ → ℚ) × (ℕ → ℚ)
  jsSqrt : ℚ → ℚ
  mwToJoule : ℚ
  kBJoules : ℚ
  ljRadius : ℚ → ℚ := fun _ => 0

/-- A concrete bundle for closed evaluations: the force step leaves the
accelerations unchanged, the square-root stand-in maps everything to `0`
(matching `Math.sqrt` at the only point the closed statements evaluate it,
`0`), and the unit conversions are `1`. -/
def ext0 : Ext :=
  { accels := fun s => (s.ax, s.ay), jsSqrt := fun _ => 0
    mwToJoule := 1, kBJoules := 1 }

/-- `KE_to_T(totalKEinMWUnits, N)` (md2d.js:60). -/
def KE_to_T (P : Ext) (totalKEinMWUnits : ℚ) (n : ℕ) : ℚ :=
  let N_df : ℚ := 2 * n
  let averageKEinMWUnits := (2 / N_df) * totalKEinMWUnits
  (P.mwToJoule * averageKEinMWUnits) / P.kBJoules

/-- `computeTemperature()` (md2d.js:734): twice the kinetic energy summed
over atoms and movable obstacles, halved and converted. -/
def computeTemperature (P : Ext) (s : Engine) : ℚ :=
  let twoKE :=
    sumOver s.N (fun i => s.mass i * (s.vx i * s.vx i + s.vy i * s.vy i)) +
    sumOver s.N_obstacles (fun i =>
      if s.obstacleMassInf i then 0
      else s.obstacleMass i * (s.obstacleVX i * s.obstacleVX i +
        s.obstacleVY i * s.obstacleVY i))
  KE_to_T P (twoKE / 2) s.N

/-- The loop of `scaleParticleVelocity` calls (md2d.js:753, 1575): velocity
AND momentum of every atom scaled by `factor`. -/
def scaleAtomVelocities (s : Engine) (factor : ℚ) : Engine :=
  { s with
    vx := fun i => if i < s.N then s.vx i * factor else s.vx i
    vy := fun i => if i < s.N then s.vy i * factor else s.vy i
    px := fun i => if i < s.N then s.px i * factor else s.px i
    py := fun i => if i < s.N then s.py i * factor else s.py i }

/-- The loop of `scaleObstacleVelocity` calls (md2d.js:764, 1579): every
obstacle's velocity scaled by `factor` (the source does not test for
infinite mass here). -/
def scaleObstacleVelocities (s : Engine) (factor : ℚ) : Engine :=
  { s with
    obstacleVX := fun i => if i < s.N_obstacles then s.obstacleVX i * factor
      else s.obstacleVX i
    obstacleVY := fun i => if i < s.N_obstacles then s.obstacleVY i * factor
      else s.obstacleVY i }

/-- Modelled from the spec: one sample pushed into
`math.getWindowedAverager(1000)`'s window (spec §4.9: "windowed averager
with fixed window size 1000"; the `./math` module is not in the
snapshot). -/
def windowPush (w : List ℚ) (v : ℚ) : List ℚ :=
  let w2 := w ++ [v]
  if 1000 < w2.length then w2.drop (w2.length - 1000) else w2

/-- Modelled from the spec: the windowed average. -/
def windowAverage (w : List ℚ) : ℚ := w.sum / w.length

/-- The transient-flag maintenance of `adjustTemperature` (md2d.js:1568):
because of JS `&&` short-circuiting, `T_windowed(T)` is evaluated (pushing a
sample) only while `temperatureChangeInProgress` is set; the flag clears
when the windowed average enters the `0.001` relative tolerance band. -/
def windowStep (s : Engine) (T target : ℚ) : Engine :=
  if s.temperatureChangeInProgress then
    let w := windowPush s.tempWindow T
    if |windowAverage w - target| ≤ target * (1 / 1000) then
      { s with tempWindow := w, temperatureChangeInProgress := false }
    else { s with tempWindow := w }
  else s

/-- `adjustTemperature(target, forceAdjustment)` (md2d.js:1560).  `target`
is `T_target` when the argument is `null`/`undefined`; the rescale triggers
on `forceAdjustment || useThermostat || temperatureChangeInProgress && T >
0` (with the possibly-just-cleared flag), scales every atom velocity and
momentum and every obstacle velocity by `Math.sqrt(target / T)`, and ends
with `T = target`. -/
def adjustTemperature (P : Ext) (s : Engine) (target? : Option ℚ)
    (forceAdjustment : Bool) : Engine :=
  let target := target?.getD s.T_target
  let T := computeTemperature P s
  let s1 := windowStep s T target
  if forceAdjustment = true ∨ s1.useThermostat = true ∨
      (s1.temperatureChangeInProgress = true ∧ 0 < T) then
    let factor := P.jsSqrt (target / T)
    { scaleObstacleVelocities (scaleAtomVelocities s1 factor) factor with T := target }
  else s1

theorem sumOver_congr (n : ℕ) (f g : ℕ → ℚ) (h : ∀ i, i < n → f i = g i) :
    sumOver n f = sumOver n g := by
  induction n with
  | zero => rfl
  | succ m ih =>
      unfold sumOver
      rw [ih (fun i hi => h i (by omega)), h m (by omega)]

theorem sumOver_mul (n : ℕ) (c : ℚ) (f : ℕ → ℚ) :
    sumOver n (fun i => c * f i) = c * sumOver n f := by
  induction n with
  | zero => simp [sumOver]
  | succ m ih =>
      unfold sumOver
      rw [ih]
      ring

theorem KE_to_T_mul (P : Ext) (c ke : ℚ) (n : ℕ) :
    KE_to_T P (c * ke) n = c * KE_to_T P ke n := by
  unfold KE_to_T
  ring

/-- `windowStep` only touches the window and the transient flag. -/
theorem windowStep_frame (s : Engine) (T target : ℚ) :
    (windowStep s T target).N = s.N ∧
    (windowStep s T target).vx = s.vx ∧
    (windowStep s T target).vy = s.vy ∧
    (windowStep s T target).px = s.px ∧
    (windowStep s T target).py = s.py ∧
    (windowStep s T target).mass = s.mass ∧
    (windowStep s T target).N_obstacles = s.N_obstacles ∧
    (windowStep s T target).obstacleVX = s.obstacleVX ∧
    (windowStep s T target).obstacleVY = s.obstacleVY ∧
    (windowStep s T target).obstacleMass = s.obstacleMass ∧
    (windowStep s T target).obstacleMassInf = s.obstacleMassInf ∧
    (windowStep s T target).useThermostat = s.useThermostat := by
  unfold windowStep
  dsimp only
  split_ifs <;>
    exact ⟨rfl, rfl, rfl, rfl, rfl, rfl, rfl, rfl, rfl, rfl, rfl, rfl⟩

/-- C4 (amended): whenever `adjustTemperature` rescales — the thermostat is
on, a transient change is in progress (after the windowed-average check)
with `T > 0`, or `forceAdjustment` is set — and the instantaneous
temperature `T` is positive, every atom velocity and momentum and every
obstacle velocity (the source scales immovable obstacles too) is multiplied
by `sqrt(target/T)`, and, provided the square root is exact (the exact-
arithmetic reading of "to floating precision"), the instantaneous
temperature recomputed from the total kinetic energy equals the target
exactly.  At `T = 0` the rescale cannot reach the target (see the
counterexample). -/
theorem C4_adjustTemperature (P : Ext) (s : Engine) (target? : Option ℚ)
    (forceAdjustment : Bool)
    (htrig : forceAdjustment = true ∨ s.useThermostat = true ∨
      ((windowStep s (computeTemperature P s)
          (target?.getD s.T_target)).temperatureChangeInProgress = true ∧
        0 < computeTemperature P s))
    (hT : 0 < computeTemperature P s)
    (hsq : P.jsSqrt (target?.getD s.T_target / computeTemperature P s) *
        P.jsSqrt (target?.getD s.T_target / computeTemperature P s) =
      target?.getD s.T_target / computeTemperature P s) :
    (∀ i, i < s.N →
      (adjustTemperature P s target? forceAdjustment).vx i =
        s.vx i * P.jsSqrt (target?.getD s.T_target / computeTemperature P s) ∧
      (adjustTemperature P s target? forceAdjustment).vy i =
        s.vy i * P.jsSqrt (target?.getD s.T_target / computeTemperature P s) ∧
      (adjustTemperature P s target? forceAdjustment).px i =
        s.px i * P.jsSqrt (target?.getD s.T_target / computeTemperature P s) ∧
      (adjustTemperature P s target? forceAdjustment).py i =
        s.py i * P.jsSqrt (target?.getD s.T_target / computeTemperature P s)) ∧
    (∀ j, j < s.N_obstacles →
      (adjustTemperature P s target? forceAdjustment).obstacleVX j =
        s.obstacleVX j * P.jsSqrt (target?.getD s.T_target / computeTemperature P s) ∧
      (adjustTemperature P s target? forceAdjustment).obstacleVY j =
        s.obstacleVY j * P.jsSqrt (target?.getD s.T_target / computeTemperature P s)) ∧
    computeTemperature P (adjustTemperature P s target? forceAdjustment) =
      target?.getD s.T_target := by
  obtain ⟨w1, w2, w3, w4, w5, w6, w7, w8, w9, w10, w11, w12⟩ :=
    windowStep_frame s (computeTemperature P s) (target?.getD s.T_target)
  have hcond : forceAdjustment = true ∨
      (windowStep s (computeTemperature P s)
        (target?.getD s.T_target)).useThermostat = true ∨
      ((windowStep s (computeTemperature P s)
          (target?.getD s.T_target)).temperatureChangeInProgress = true ∧
        0 < computeTemperature P s) := by
    rw [w12]
    exact htrig
  have hres : adjustTemperature P s target? forceAdjustment =
      { scaleObstacleVelocities
          (scaleAtomVelocities
            (windowStep s (computeTemperature P s) (target?.getD s.T_target))
            (P.jsSqrt (target?.getD s.T_target / computeTemperature P s)))
          (P.jsSqrt (target?.getD s.T_target / computeTemperature P s)) with
        T := target?.getD s.T_target } := by
    unfold adjustTemperature
    rw [if_pos hcond]
  rw [hres]
  refine ⟨?_, ?_, ?_⟩
  · intro i hi
    simp only [scaleObstacleVelocities, scaleAtomVelocities]
    rw [w1, w2, w3, w4, w5]
    exact ⟨by rw [if_pos hi], by rw [if_pos hi], by rw [if_pos hi], by rw [if_pos hi]⟩
  · intro j hj
    simp only [scaleObstacleVelocities, scaleAtomVelocities]
    rw [w7, w8, w9]
    exact ⟨by rw [if_pos hj], by rw [if_pos hj]⟩
  · clear hres hcond htrig
    have hTeq : KE_to_T P
        ((sumOver s.N (fun i => s.mass i * (s.vx i * s.vx i + s.vy i * s.vy i)) +
          sumOver s.N_obstacles (fun j =>
            if s.obstacleMassInf j then 0
            else s.obstacleMass j * (s.obstacleVX j * s.obstacleVX j +
              s.obstacleVY j * s.obstacleVY j))) / 2) s.N =
        computeTemperature P s := rfl
    generalize hTg : computeTemperature P s = T at hT hsq w1 w2 w3 w6 w7 w8 w9 w10 w11 hTeq ⊢
    unfold computeTemperature
    simp only [scaleObstacleVelocities, scaleAtomVelocities]
    rw [w1, w2, w3, w6, w7, w8, w9, w10, w11]
    have hatoms : sumOver s.N (fun i =>
        s.mass i * ((if i < s.N then s.vx i *
            P.jsSqrt (target?.getD s.T_target / T) else s.vx i) *
          (if i < s.N then s.vx i *
            P.jsSqrt (target?.getD s.T_target / T) else s.vx i) +
          (if i < s.N then s.vy i *
            P.jsSqrt (target?.getD s.T_target / T) else s.vy i) *
          (if i < s.N then s.vy i *
            P.jsSqrt (target?.getD s.T_target / T) else s.vy i))) =
        (target?.getD s.T_target / T) *
          sumOver s.N (fun i => s.mass i * (s.vx i * s.vx i + s.vy i * s.vy i)) := by
      rw [← sumOver_mul]
      apply sumOver_congr
      intro i hi
      simp only [if_pos hi]
      rw [show (s.vx i * P.jsSqrt (target?.getD s.T_target / T)) *
            (s.vx i * P.jsSqrt (target?.getD s.T_target / T)) =
          (P.jsSqrt (target?.getD s.T_target / T) *
            P.jsSqrt (target?.getD s.T_target / T)) *
            (s.vx i * s.vx i) from by ring,
        show (s.vy i * P.jsSqrt (target?.getD s.T_target / T)) *
            (s.vy i * P.jsSqrt (target?.getD s.T_target / T)) =
          (P.jsSqrt (target?.getD s.T_target / T) *
            P.jsSqrt (target?.getD s.T_target / T)) *
            (s.vy i * s.vy i) from by ring, hsq]
      ring
    have hobs : sumOver s.N_obstacles (fun j =>
        if s.obstacleMassInf j then 0
        else s.obstacleMass j *
          ((if j < s.N_obstacles then s.obstacleVX j *
              P.jsSqrt (target?.getD s.T_target / T)
            else s.obstacleVX j) *
            (if j < s.N_obstacles then s.obstacleVX j *
              P.jsSqrt (target?.getD s.T_target / T)
            else s.obstacleVX j) +
            (if j < s.N_obstacles then s.obstacleVY j *
              P.jsSqrt (target?.getD s.T_target / T)
            else s.obstacleVY j) *
            (if j < s.N_obstacles then s.obstacleVY j *
              P.jsSqrt (target?.getD s.T_target / T)
            else s.obstacleVY j))) =
        (target?.getD s.T_target / T) *
          sumOver s.N_obstacles (fun j =>
            if s.obstacleMassInf j then 0
            else s.obstacleMass j * (s.obstacleVX j * s.obstacleVX j +
              s.obstacleVY j * s.obstacleVY j)) := by
      rw [← sumOver_mul]
      apply sumOver_congr
      intro j hj
      simp only [if_pos hj]
      by_cases hInf : s.obstacleMassInf j
      · simp only [if_pos hInf]
        ring
      · simp only [if_neg hInf]
        rw [show (s.obstacleVX j * P.jsSqrt (target?.getD s.T_target / T)) *
              (s.obstacleVX j * P.jsSqrt (target?.getD s.T_target / T)) =
            (P.jsSqrt (target?.getD s.T_target / T) *
              P.jsSqrt (target?.getD s.T_target / T)) *
              (s.obstacleVX j * s.obstacleVX j) from by ring,
          show (s.obstacleVY j * P.jsSqrt (target?.getD s.T_target / T)) *
              (s.obstacleVY j * P.jsSqrt (target?.getD s.T_target / T)) =
            (P.jsSqrt (target?.getD s.T_target / T) *
              P.jsSqrt (target?.getD s.T_target / T)) *
              (s.obstacleVY j * s.obstacleVY j) from by ring, hsq]
        ring
    rw [hatoms, hobs]
    rw [show (target?.getD s.T_target / T) *
          sumOver s.N (fun i => s.mass i * (s.vx i * s.vx i + s.vy i * s.vy i)) +
        (target?.getD s.T_target / T) *
          sumOver s.N_obstacles (fun j =>
            if s.obstacleMassInf j then 0
            else s.obstacleMass j * (s.obstacleVX j * s.obstacleVX j +
              s.obstacleVY j * s.obstacleVY j)) =
        (target?.getD s.T_target / T) *
          (sumOver s.N (fun i => s.mass i * (s.vx i * s.vx i + s.vy i * s.vy i)) +
            sumOver s.N_obstacles (fun j =>
              if s.obstacleMassInf j then 0
              else s.obstacleMass j * (s.obstacleVX j * s.obstacleVX j +
                s.obstacleVY j * s.obstacleVY j))) from by ring]
    rw [show (target?.getD s.T_target / T) *
          (sumOver s.N (fun i => s.mass i * (s.vx i * s.vx i + s.vy i * s.vy i)) +
            sumOver s.N_obstacles (fun j =>
              if s.obstacleMassInf j then 0
              else s.obstacleMass j * (s.obstacleVX j * s.obstacleVX j +
                s.obstacleVY j * s.obstacleVY j))) / 2 =
        (target?.getD s.T_target / T) *
          ((sumOver s.N (fun i => s.mass i * (s.vx i * s.vx i + s.vy i * s.vy i)) +
            sumOver s.N_obstacles (fun j =>
              if s.obstacleMassInf j then 0
              else s.obstacleMass j * (s.obstacleVX j * s.obstacleVX j +
                s.obstacleVY j * s.obstacleVY j))) / 2) from by ring]
    rw [KE_to_T_mul, hTeq]
    exact div_mul_cancel₀ _ (ne_of_gt hT)

/-- One resting atom of mass 1, thermostat enabled, target temperature
100: the state for the C4 counterexample. -/
def engineC4 : Engine :=
  { N := 1, mass := fun _ => 1, useThermostat := true, T_target := 100 }

/-- C4 counterexample: with the thermostat on and a target of 100 but every
velocity zero, the instantaneous temperature is 0, the rescale fires
(useThermostat is set), yet the temperature after `adjustTemperature` is
still 0, not the target: multiplying zero velocities by any factor cannot
reach a positive target (in the JS source the factor is
`Math.sqrt(target/0) = Infinity` and the velocities become `NaN`, which is
not "system temperature equals the target" either). -/
theorem C4_counterexample_zero_temperature :
    engineC4.useThermostat = true ∧
    engineC4.T_target = 100 ∧
    computeTemperature ext0 engineC4 = 0 ∧
    computeTemperature ext0 (adjustTemperature ext0 engineC4 none false) = 0 ∧
    (0 : ℚ) ≠ 100 := by
  refine ⟨rfl, rfl, ?_, ?_, by norm_num⟩
  · norm_num [computeTemperature, KE_to_T, sumOver, engineC4, ext0]
  · norm_num [computeTemperature, KE_to_T, sumOver, adjustTemperature, windowStep,
      scaleAtomVelocities, scaleObstacleVelocities, engineC4, ext0]

/-- One atom of mass 1 moving at `vx = 4` (temperature 8 with unit
conversions), thermostat enabled, target temperature 2: the witness state
for C4. -/
def engineC4w : Engine :=
  { N := 1, mass := fun _ => 1, vx := fun _ => 4, useThermostat := true, T_target := 2 }

/-- An external-function bundle whose square root is exact at the single
point the C4 witness evaluates it: `sqrt(2/8) = 1/2`. -/
def extC4 : Ext :=
  { accels := fun s => (s.ax, s.ay), jsSqrt := fun _ => 1 / 2
    mwToJoule := 1, kBJoules := 1 }

theorem C4_adjustTemperature_witness :
    ((false = true ∨ engineC4w.useThermostat = true ∨
      ((windowStep engineC4w (computeTemperature extC4 engineC4w)
          ((none : Option ℚ).getD engineC4w.T_target)).temperatureChangeInProgress = true ∧
        0 < computeTemperature extC4 engineC4w)) ∧
      0 < computeTemperature extC4 engineC4w ∧
      extC4.jsSqrt ((none : Option ℚ).getD engineC4w.T_target /
          computeTemperature extC4 engineC4w) *
        extC4.jsSqrt ((none : Option ℚ).getD engineC4w.T_target /
          computeTemperature extC4 engineC4w) =
        (none : Option ℚ).getD engineC4w.T_target / computeTemperature extC4 engineC4w) ∧
    computeTemperature extC4 (adjustTemperature extC4 engineC4w none false) =
      (none : Option ℚ).getD engineC4w.T_target := by
  have hT : 0 < computeTemperature extC4 engineC4w := by
    norm_num [computeTemperature, KE_to_T, sumOver, engineC4w, extC4]
  have hsq : extC4.jsSqrt ((none : Option ℚ).getD engineC4w.T_target /
        computeTemperature extC4 engineC4w) *
      extC4.jsSqrt ((none : Option ℚ).getD engineC4w.T_target /
        computeTemperature extC4 engineC4w) =
      (none : Option ℚ).getD engineC4w.T_target / computeTemperature extC4 engineC4w := by
    norm_num [computeTemperature, KE_to_T, sumOver, engineC4w, extC4]
  exact ⟨⟨Or.inr (Or.inl rfl), hT, hsq⟩,
    (C4_adjustTemperature extC4 engineC4w none false (Or.inr (Or.inl rfl)) hT hsq).2.2⟩

-- ####################################################################
-- Velocity Verlet integration (md2d.js lines 1391-1558, 2254-2330),
-- claims C1 and C2
-- ####################################################################

/-- `halfUpdateVelocity()` (md2d.js:1463): for each atom,
`vx += 0.5*ax*dt; px = m*vx` and likewise for `vy`/`py`. -/
def halfUpdateVelocity (s : Engine) : Engine :=
  { s with
    vx := fun i => if i < s.N then s.vx i + 1 / 2 * s.ax i * s.dt else s.vx i
    vy := fun i => if i < s.N then s.vy i + 1 / 2 * s.ay i * s.dt else s.vy i
    px := fun i => if i < s.N then s.mass i * (s.vx i + 1 / 2 * s.ax i * s.dt)
      else s.px i
    py := fun i => if i < s.N then s.mass i * (s.vy i + 1 / 2 * s.ay i * s.dt)
      else s.py i }

/-- `pinAtoms()` (md2d.js:1504): zero velocity and acceleration of pinned
atoms (momentum is NOT zeroed here; the next `halfUpdateVelocity`
recomputes it). -/
def pinAtoms (s : Engine) : Engine :=
  { s with
    vx := fun i => if i < s.N ∧ s.pinned i then 0 else s.vx i
    vy := fun i => if i < s.N ∧ s.pinned i then 0 else s.vy i
    ax := fun i => if i < s.N ∧ s.pinned i then 0 else s.ax i
    ay := fun i => if i < s.N ∧ s.pinned i then 0 else s.ay i }

/-- `updateParticlesSpeed()` (md2d.js:1515). -/
def updateParticlesSpeed (P : Ext) (s : Engine) : Engine :=
  { s with
    speed := fun i => if i < s.N then P.jsSqrt (s.vx i * s.vx i + s.vy i * s.vy i)
      else s.speed i }

/-- The body of the `updateObstaclesPosition()` loop (md2d.js:1524) for
obstacle `i`: skip immovable obstacles; otherwise, when the JS truthiness
test `vx || vy || extFx || extFy || gravitationalField` passes (a stored
`gravitationalField` is never the number 0, see `setGravitationalField`
md2d.js:1609, so its truthiness is `isSome`), apply drag and external
accelerations, advance position and velocity, and bounce off the walls. -/
def updateObstacleOne (s : Engine) (i : ℕ) : Engine :=
  if s.obstacleMassInf i then s
  else
    let vx := s.obstacleVX i
    let vy := s.obstacleVY i
    let extFx := s.obstacleExtFX i
    let extFy := s.obstacleExtFY i
    if vx ≠ 0 ∨ vy ≠ 0 ∨ extFx ≠ 0 ∨ extFy ≠ 0 ∨ s.grav.isSome = true then
      let drag := s.viscosity * s.obstacleFriction i
      let ax := extFx - drag * vx
      let ay := extFy - drag * vy - s.grav.getD 0
      bounceObstacleOffWalls
        { s with
          obstacleXPrev := Function.update s.obstacleXPrev i (s.obstacleX i)
          obstacleYPrev := Function.update s.obstacleYPrev i (s.obstacleY i)
          obstacleX := Function.update s.obstacleX i
            (s.obstacleX i + vx * s.dt + 1 / 2 * ax * s.dt_sq)
          obstacleY := Function.update s.obstacleY i
            (s.obstacleY i + vy * s.dt + 1 / 2 * ay * s.dt_sq)
          obstacleVX := Function.update s.obstacleVX i (vx + ax * s.dt)
          obstacleVY := Function.update s.obstacleVY i (vy + ay * s.dt) } i
    else s

/-- `updateObstaclesPosition()` (md2d.js:1524). -/
def updateObstaclesPosition (s : Engine) : Engine :=
  iterOver s.N_obstacles (fun i t => updateObstacleOne t i) s

/-- `updateParticlesAccelerations()` (md2d.js:1391) through the external
bundle: the force kernels overwrite `ax`/`ay` as a function of the whole
state. -/
def updateParticlesAccelerations (P : Ext) (s : Engine) : Engine :=
  { s with ax := (P.accels s).1, ay := (P.accels s).2 }

/-- Modelled from the spec: `pressureBuffers.updateBuffers(duration)`
advances the pressure-buffers module by `duration` (the module itself is
not in the snapshot, so its state is abstracted as the accumulated elapsed
time). -/
def updatePressureBuffers (s : Engine) (d : ℚ) : Engine :=
  { s with pressureElapsed := s.pressureElapsed + d }

/-- One iteration of the `integrate` loop (md2d.js:2277-2305) with the
model clock set to `t`: half-kick, position update with divergence guard,
recompute accelerations, pin atoms, second half-kick, speeds, obstacles,
thermostat (`adjustTemperature()` is called with both arguments
`undefined`). -/
def verletStepAt (P : Ext) (t : ℚ) (s : Engine) : Except String Engine :=
  let s1 := halfUpdateVelocity { s with time := t }
  (updateParticlesPosition s1).map (fun s2 =>
    let s3 := updateParticlesAccelerations P s2
    let s4 := pinAtoms s3
    let s5 := halfUpdateVelocity s4
    let s6 := updateParticlesSpeed P s5
    let s7 := updateObstaclesPosition s6
    adjustTemperature P s7 none false)

/-- The `for (iloop = 1; iloop <= steps; iloop++)` loop of `integrate`
(md2d.js:2277), with the clock set to `tStart + iloop * dt` each
iteration; a divergence error aborts the loop. -/
def integrateLoop (P : Ext) (tStart dtv : ℚ) (steps : ℤ) (iloop : ℤ)
    (s : Engine) : Except String Engine :=
  if h : steps < iloop then Except.ok s
  else
    (verletStepAt P (tStart + (iloop : ℚ) * dtv) s).bind (fun t =>
      integrateLoop P tStart dtv steps (iloop + 1) t)
  termination_by (steps + 1 - iloop).toNat
  decreasing_by
    simp only [not_lt] at h
    omega

/-- `engine.integrate(duration, _dt)` (md2d.js:2254): defaults 100 and 1,
`dt`/`dt_sq` stored, a one-off acceleration computation when the model
time is exactly 0, `floor(duration/dt)` loop iterations from `iloop = 1`,
then the pressure buffers advanced by `duration`. -/
def integrate (P : Ext) (s : Engine) (duration? dt? : Option ℚ) :
    Except String Engine :=
  if s.atomsHaveBeenCreated = false then
    Except.error ("md2d: integrate called before atoms created.")
  else
    let duration := duration?.getD 100
    let dtv := dt?.getD 1
    let s1 := { s with dt := dtv, dt_sq := dtv * dtv }
    let s2 := if s1.time = 0 then updateParticlesAccelerations P s1 else s1
    (integrateLoop P s.time dtv ⌊duration / dtv⌋ 1 s2).map (fun t =>
      updatePressureBuffers t duration)

/-- Modelled from the spec: `n` velocity-Verlet steps run in sequence, each
advancing the clock by `dt` past the previous step (the claim-side
counterpart of the `integrate` loop). -/
def runVerletSteps (P : Ext) (tStart dtv : ℚ) : ℕ → Engine → Except String Engine
  | 0, s => Except.ok s
  | n + 1, s =>
      (verletStepAt P (tStart + dtv) s).bind (fun t =>
        runVerletSteps P (tStart + dtv) dtv n t)

/-- Modelled from the spec: claim C1's description of `integrate` — exactly
`floor(duration/dt)` velocity-Verlet steps (defaults `duration = 100`,
`dt = 1`), preceded by a one-off acceleration computation when the model
time is exactly 0 and followed by advancing the pressure buffers by
`duration`. -/
def integrateSpec (P : Ext) (s : Engine) (duration? dt? : Option ℚ) :
    Except String Engine :=
  if s.atomsHaveBeenCreated = false then
    Except.error ("md2d: integrate called before atoms created.")
  else
    let duration := duration?.getD 100
    let dtv := dt?.getD 1
    let s1 := { s with dt := dtv, dt_sq := dtv * dtv }
    let s2 := if s1.time = 0 then updateParticlesAccelerations P s1 else s1
    (runVerletSteps P s.time dtv (⌊duration / dtv⌋).toNat s2).map (fun t =>
      updatePressureBuffers t duration)

/-- The per-atom key/value hash passed to `setAtomProperties`/`addAtom`:
each field is `some v` when the key is present.  (`element` indexes the
element arrays; `pinned` is the source's boolean flag.) -/
structure AtomProps where
  x : Option ℚ := none
  y : Option ℚ := none
  vx : Option ℚ := none
  vy : Option ℚ := none
  ax : Option ℚ := none
  ay : Option ℚ := none
  charge : Option ℚ := none
  friction : Option ℚ := none
  radius : Option ℚ := none
  mass : Option ℚ := none
  px : Option ℚ := none
  py : Option ℚ := none
  speed : Option ℚ := none
  element : Option ℕ := none
  pinned : Option Bool := none

/-- `atoms[key][i] = props[key]` for one optional key. -/
def updOpt (f : ℕ → ℚ) (i : ℕ) : Option ℚ → ℕ → ℚ
  | none => f
  | some v => Function.update f i v

/-- `engine.setAtomProperties(i, props)` (md2d.js:1646): a provided
`element` marks the element used and overrides `mass` and `radius` from the
element tables; the charged-atoms list is maintained (the removal drops the
first occurrence, as the JS `indexOf`/`slice` splice does); every provided
key is written at index `i`; then `px`, `py` and `speed` at `i` are
recomputed from the just-written `vx`, `vy` and `mass`.  (The cell- and
neighbor-list reinitializations touch only the external optimization
modules.) -/
def setAtomProperties (P : Ext) (s : Engine) (i : ℕ) (props : AtomProps) :
    Engine :=
  let props1 :=
    match props.element with
    | none => props
    | some e => { props with mass := some (s.elementMass e)
                             radius := some (s.elementRadius e) }
  let elementUsed1 :=
    match props.element with
    | none => s.elementUsed
    | some e => Function.update s.elementUsed e true
  let cal1 :=
    if s.charge i = 0 ∧ props.charge.isSome = true ∧ props.charge ≠ some 0 then
      s.chargedAtomsList ++ [i]
    else if s.charge i ≠ 0 ∧ props.charge = some 0 then
      s.chargedAtomsList.erase i
    else s.chargedAtomsList
  let vx1 := updOpt s.vx i props1.vx
  let vy1 := updOpt s.vy i props1.vy
  let mass1 := updOpt s.mass i props1.mass
  { s with
    elementUsed := elementUsed1
    chargedAtomsList := cal1
    hasChargedAtoms := decide (cal1 ≠ [])
    x := updOpt s.x i props1.x
    y := updOpt s.y i props1.y
    ax := updOpt s.ax i props1.ax
    ay := updOpt s.ay i props1.ay
    charge := updOpt s.charge i props1.charge
    friction := updOpt s.friction i props1.friction
    radius := updOpt s.radius i props1.radius
    element := (match props1.element with
      | none => s.element
      | some e => Function.update s.element i e)
    pinned := (match props1.pinned with
      | none => s.pinned
      | some b => Function.update s.pinned i b)
    vx := vx1
    vy := vy1
    mass := mass1
    px := Function.update (updOpt s.px i props1.px) i (vx1 i * mass1 i)
    py := Function.update (updOpt s.py i props1.py) i (vy1 i * mass1 i)
    speed := Function.update (updOpt s.speed i props1.speed) i
      (P.jsSqrt (vx1 i * vx1 i + vy1 i * vy1 i)) }

/-- `engine.addAtom(props)` (md2d.js:1842): force `ax = ay = 0`, grow `N`,
then `setAtomProperties(N - 1, props)`.  (Array extension and the cell- and
neighbor-list reinitializations concern only capacity and the external
optimization modules.) -/
def addAtom (P : Ext) (s : Engine) (props : AtomProps) : Engine :=
  let props1 := { props with ax := some 0, ay := some 0 }
  let s1 := { s with N := s.N + 1 }
  setAtomProperties P s1 (s1.N - 1) props1

/-- Claim C2's invariant: every atom's stored momentum is exactly its mass
times its velocity. -/
def momentumInvariant (s : Engine) : Prop :=
  ∀ i, i < s.N → s.px i = s.mass i * s.vx i ∧ s.py i = s.mass i * s.vy i

/-- `engine.setElementProperties(i, properties)` (md2d.js:1716): a changed
element mass is written into `elementMass[i]` AND into `mass[j]` of every
atom of that element — with no recomputation of `px[j]`/`py[j]`; a provided
sigma updates `elementSigma` and, when `lennardJones.radius` of it differs
from the stored element radius, propagates the new radius to those atoms; a
provided epsilon updates `elementEpsilon`.  (The closing
`setPairwiseLJProperties` loop feeds only the external potentials
module.) -/
def setElementProperties (P : Ext) (s : Engine) (i : ℕ)
    (mass? sigma? epsilon? : Option ℚ) : Engine :=
  let s1 :=
    match mass? with
    | none => s
    | some m =>
        if m ≠ s.elementMass i then
          { s with
            elementMass := Function.update s.elementMass i m
            mass := fun j => if j < s.N ∧ s.element j = i then m else s.mass j }
        else s
  let s2 :=
    match sigma? with
    | none => s1
    | some sg =>
        let newRadius := P.ljRadius sg
        let s1a := { s1 with elementSigma := Function.update s1.elementSigma i sg }
        if s1a.elementRadius i ≠ newRadius then
          { s1a with
            elementRadius := Function.update s1a.elementRadius i newRadius
            radius := fun j => if j < s1a.N ∧ s1a.element j = i then newRadius
              else s1a.radius j }
        else s1a
  match epsilon? with
  | none => s2
  | some e => { s2 with elementEpsilon := Function.update s2.elementEpsilon i e }

/-- A momentum-consistent one-atom state (mass 2, `vx = 3`, `px = 6`) whose
single atom belongs to element 0 of mass 2: the C2 counterexample state. -/
def engineC2x : Engine :=
  { N := 1, mass := fun _ => 2, vx := fun _ => 3, px := fun _ => 6
    element := fun _ => 0, elementMass := fun _ => 2, N_elements := 1 }

/-- C2 counterexample: the public setter `setElementProperties` with a
changed element mass (2 → 5) propagates the new mass into `mass[0]` without
recomputing `px[0]`, so the momentum identity — which held before the
call — is violated right after it: `px = 6` but `mass·vx = 15`. -/
theorem C2_counterexample_setElementProperties :
    momentumInvariant engineC2x ∧
    (setElementProperties ext0 engineC2x 0 (some 5) none none).mass 0 = 5 ∧
    (setElementProperties ext0 engineC2x 0 (some 5) none none).px 0 = 6 ∧
    (setElementProperties ext0 engineC2x 0 (some 5) none none).vx 0 = 3 ∧
    ¬ momentumInvariant (setElementProperties ext0 engineC2x 0 (some 5) none none) := by
  refine ⟨?_, ?_, ?_, ?_, ?_⟩
  · intro i hi
    have hi1 : i < 1 := hi
    have h0 : i = 0 := by omega
    subst h0
    exact ⟨by norm_num [engineC2x], by norm_num [engineC2x]⟩
  · norm_num [setElementProperties, engineC2x, ext0]
  · norm_num [setElementProperties, engineC2x, ext0]
  · norm_num [setElementProperties, engineC2x, ext0]
  · intro hinv
    have h := (hinv 0 (by norm_num [setElementProperties, engineC2x])).1
    norm_num [setElementProperties, engineC2x, ext0] at h

theorem integrateLoop_stop (P : Ext) (tStart dtv : ℚ) (steps iloop : ℤ)
    (s : Engine) (h : steps < iloop) :
    integrateLoop P tStart dtv steps iloop s = Except.ok s := by
  rw [integrateLoop]
  rw [dif_pos h]

theorem integrateLoop_step (P : Ext) (tStart dtv : ℚ) (steps iloop : ℤ)
    (s : Engine) (h : ¬ steps < iloop) :
    integrateLoop P tStart dtv steps iloop s =
      (verletStepAt P (tStart + (iloop : ℚ) * dtv) s).bind (fun t =>
        integrateLoop P tStart dtv steps (iloop + 1) t) := by
  rw [integrateLoop]
  rw [dif_neg h]

theorem runVerletSteps_succ (P : Ext) (tStart dtv : ℚ) (n : ℕ) (s : Engine) :
    runVerletSteps P tStart dtv (n + 1) s =
      (verletStepAt P (tStart + dtv) s).bind (fun t =>
        runVerletSteps P (tStart + dtv) dtv n t) := rfl

/-- The `integrate` loop from counter `k` equals `n` claim-side steps based
at the time the previous iteration would have set, whenever `n` counts the
remaining iterations. -/
theorem integrateLoop_eq (P : Ext) (tStart dtv : ℚ) (steps : ℤ) :
    ∀ (n : ℕ) (k : ℤ) (s : Engine), steps - k + 1 = n →
      integrateLoop P tStart dtv steps k s =
        runVerletSteps P (tStart + ((k : ℚ) - 1) * dtv) dtv n s := by
  intro n
  induction n with
  | zero =>
      intro k s hk
      rw [integrateLoop_stop P tStart dtv steps k s (by omega)]
      rfl
  | succ m ih =>
      intro k s hk
      rw [integrateLoop_step P tStart dtv steps k s (by omega)]
      rw [runVerletSteps_succ]
      rw [show tStart + ((k : ℚ) - 1) * dtv + dtv = tStart + (k : ℚ) * dtv from by
        ring]
      cases hstep : verletStepAt P (tStart + (k : ℚ) * dtv) s with
      | error e => rfl
      | ok t =>
          have hih := ih (k + 1) t (by omega)
          rw [show ((k + 1 : ℤ) : ℚ) - 1 = (k : ℚ) from by push_cast ; ring] at hih
          exact hih

/-- C1: once atoms exist, with a positive time step and a nonnegative
duration, `integrate(duration, dt)` is exactly the claim-side description
`integrateSpec`: `floor(duration/dt)` velocity-Verlet steps run in
sequence (the `toNat`/floor equality states that the count is exactly the
floor, never clipped), after a one-off acceleration computation when the
model time is exactly 0 and with the pressure buffers advanced by
`duration` after the loop; omitted arguments behave as `duration = 100`,
`dt = 1`. -/
theorem C1_integrate (P : Ext) (s : Engine) (duration? dt? : Option ℚ)
    (hcr : s.atomsHaveBeenCreated = true)
    (hdt : 0 < dt?.getD 1) (hdur : 0 ≤ duration?.getD 100) :
    integrate P s duration? dt? = integrateSpec P s duration? dt? ∧
    ((⌊duration?.getD 100 / dt?.getD 1⌋.toNat : ℤ) =
      ⌊duration?.getD 100 / dt?.getD 1⌋) ∧
    integrate P s none none = integrate P s (some 100) (some 1) := by
  have hfl : (0 : ℤ) ≤ ⌊duration?.getD 100 / dt?.getD 1⌋ :=
    Int.floor_nonneg.mpr (div_nonneg hdur (le_of_lt hdt))
  refine ⟨?_, by omega, rfl⟩
  unfold integrate integrateSpec
  rw [if_neg (by rw [hcr] ; simp), if_neg (by rw [hcr] ; simp)]
  dsimp only
  rw [integrateLoop_eq P s.time (dt?.getD 1) ⌊duration?.getD 100 / dt?.getD 1⌋
    (⌊duration?.getD 100 / dt?.getD 1⌋).toNat 1 _ (by omega)]
  norm_num

/-- A fresh engine whose atoms are marked created: the C1 witness state. -/
def engineC1 : Engine := { atomsHaveBeenCreated := true }

theorem C1_integrate_witness :
    engineC1.atomsHaveBeenCreated = true ∧
    (0 : ℚ) < (some (1 : ℚ)).getD 1 ∧
    (0 : ℚ) ≤ (some (100 : ℚ)).getD 100 ∧
    (integrate ext0 engineC1 (some 100) (some 1) =
        integrateSpec ext0 engineC1 (some 100) (some 1) ∧
      ((⌊(some (100 : ℚ)).getD 100 / (some (1 : ℚ)).getD 1⌋.toNat : ℤ) =
        ⌊(some (100 : ℚ)).getD 100 / (some (1 : ℚ)).getD 1⌋) ∧
      integrate ext0 engineC1 none none =
        integrate ext0 engineC1 (some 100) (some 1)) :=
  ⟨rfl, by norm_num [Option.getD], by norm_num [Option.getD],
    C1_integrate ext0 engineC1 (some 100) (some 1) rfl
      (by norm_num [Option.getD]) (by norm_num [Option.getD])⟩

theorem updOpt_noteq {i j : ℕ} (h : j ≠ i) (f : ℕ → ℚ) (o : Option ℚ) :
    updOpt f i o j = f j := by
  cases o with
  | none => rfl
  | some v => exact Function.update_noteq h v f

/-- The momentum invariant transports along agreement of the six fields it
reads. -/
theorem momentumInvariant_frame (s t : Engine) (hN : t.N = s.N)
    (hpx : t.px = s.px) (hpy : t.py = s.py) (hvx : t.vx = s.vx)
    (hvy : t.vy = s.vy) (hm : t.mass = s.mass)
    (h : momentumInvariant s) : momentumInvariant t := by
  intro i hi
  rw [hN] at hi
  rw [hpx, hpy, hvx, hvy, hm]
  exact h i hi

/-- `setAtomProperties` establishes the momentum identity at `i`
(`px[i] = vx[i]*mass[i]` is recomputed last) and leaves every other atom's
momentum data untouched. -/
theorem setAtomProperties_frame (P : Ext) (s : Engine) (i : ℕ)
    (props : AtomProps) :
    (setAtomProperties P s i props).N = s.N ∧
    ((setAtomProperties P s i props).px i =
        (setAtomProperties P s i props).mass i *
          (setAtomProperties P s i props).vx i ∧
      (setAtomProperties P s i props).py i =
        (setAtomProperties P s i props).mass i *
          (setAtomProperties P s i props).vy i) ∧
    ∀ j, j ≠ i →
      (setAtomProperties P s i props).px j = s.px j ∧
      (setAtomProperties P s i props).py j = s.py j ∧
      (setAtomProperties P s i props).vx j = s.vx j ∧
      (setAtomProperties P s i props).vy j = s.vy j ∧
      (setAtomProperties P s i props).mass j = s.mass j := by
  unfold setAtomProperties
  dsimp only
  refine ⟨rfl, ⟨?_, ?_⟩, ?_⟩
  · rw [Function.update_same]
    ring
  · rw [Function.update_same]
    ring
  · intro j hji
    simp only [Function.update_noteq hji, updOpt_noteq hji]
    exact ⟨trivial, trivial, trivial, trivial, trivial⟩

theorem setAtomProperties_inv (P : Ext) (s : Engine) (i : ℕ)
    (props : AtomProps) (h : momentumInvariant s) :
    momentumInvariant (setAtomProperties P s i props) := by
  obtain ⟨hN, hi, hother⟩ := setAtomProperties_frame P s i props
  intro j hj
  rw [hN] at hj
  by_cases hji : j = i
  · subst hji
    exact hi
  · obtain ⟨h1, h2, h3, h4, h5⟩ := hother j hji
    rw [h1, h2, h3, h4, h5]
    exact h j hj

theorem addAtom_inv (P : Ext) (s : Engine) (props : AtomProps)
    (h : momentumInvariant s) : momentumInvariant (addAtom P s props) := by
  unfold addAtom
  dsimp only
  show momentumInvariant
    (setAtomProperties P { s with N := s.N + 1 } (s.N + 1 - 1)
      { props with ax := some 0, ay := some 0 })
  obtain ⟨hN, hi, hother⟩ :=
    setAtomProperties_frame P { s with N := s.N + 1 } (s.N + 1 - 1)
      { props with ax := some 0, ay := some 0 }
  have hNv : ({ s with N := s.N + 1 } : Engine).N = s.N + 1 := rfl
  intro j hj
  rw [hN, hNv] at hj
  by_cases hji : j = s.N + 1 - 1
  · subst hji
    exact hi
  · obtain ⟨h1, h2, h3, h4, h5⟩ := hother j hji
    rw [h1, h2, h3, h4, h5]
    show s.px j = s.mass j * s.vx j ∧ s.py j = s.mass j * s.vy j
    exact h j (by omega)

/-- The half-kick recomputes `px = m*vx`, `py = m*vy` for every atom, so
the momentum invariant holds after it unconditionally. -/
theorem halfUpdateVelocity_inv (s : Engine) :
    momentumInvariant (halfUpdateVelocity s) := by
  intro i hi
  have hs : i < s.N := hi
  unfold halfUpdateVelocity
  dsimp only
  simp only [if_pos hs]
  exact ⟨trivial, trivial⟩

theorem bounceObstacleOffWalls_momFrame (s : Engine) (i : ℕ) :
    (bounceObstacleOffWalls s i).N = s.N ∧
    (bounceObstacleOffWalls s i).px = s.px ∧
    (bounceObstacleOffWalls s i).py = s.py ∧
    (bounceObstacleOffWalls s i).vx = s.vx ∧
    (bounceObstacleOffWalls s i).vy = s.vy ∧
    (bounceObstacleOffWalls s i).mass = s.mass := by
  unfold bounceObstacleOffWalls
  dsimp only
  split_ifs <;> exact ⟨rfl, rfl, rfl, rfl, rfl, rfl⟩

theorem updateObstacleOne_momFrame (s : Engine) (i : ℕ) :
    (updateObstacleOne s i).N = s.N ∧
    (updateObstacleOne s i).px = s.px ∧
    (updateObstacleOne s i).py = s.py ∧
    (updateObstacleOne s i).vx = s.vx ∧
    (updateObstacleOne s i).vy = s.vy ∧
    (updateObstacleOne s i).mass = s.mass := by
  unfold updateObstacleOne
  dsimp only
  split_ifs with h1 h2
  · exact ⟨rfl, rfl, rfl, rfl, rfl, rfl⟩
  · exact bounceObstacleOffWalls_momFrame _ i
  · exact ⟨rfl, rfl, rfl, rfl, rfl, rfl⟩

theorem updateObstaclesPosition_momFrame (s : Engine) :
    (updateObstaclesPosition s).N = s.N ∧
    (updateObstaclesPosition s).px = s.px ∧
    (updateObstaclesPosition s).py = s.py ∧
    (updateObstaclesPosition s).vx = s.vx ∧
    (updateObstaclesPosition s).vy = s.vy ∧
    (updateObstaclesPosition s).mass = s.mass := by
  unfold updateObstaclesPosition
  have key : ∀ n,
      (iterOver n (fun i t => updateObstacleOne t i) s).N = s.N ∧
      (iterOver n (fun i t => updateObstacleOne t i) s).px = s.px ∧
      (iterOver n (fun i t => updateObstacleOne t i) s).py = s.py ∧
      (iterOver n (fun i t => updateObstacleOne t i) s).vx = s.vx ∧
      (iterOver n (fun i t => updateObstacleOne t i) s).vy = s.vy ∧
      (iterOver n (fun i t => updateObstacleOne t i) s).mass = s.mass := by
    intro n
    induction n with
    | zero => exact ⟨rfl, rfl, rfl, rfl, rfl, rfl⟩
    | succ m ih =>
        obtain ⟨a, b, c, d, e, f⟩ := ih
        obtain ⟨a2, b2, c2, d2, e2, f2⟩ :=
          updateObstacleOne_momFrame
            (iterOver m (fun i t => updateObstacleOne t i) s) m
        exact ⟨a2.trans a, b2.trans b, c2.trans c, d2.trans d, e2.trans e,
          f2.trans f⟩
  exact key s.N_obstacles

/-- `adjustTemperature` scales `vx` and `px` (resp. `vy` and `py`) by the
same factor, so it preserves the momentum invariant. -/
theorem adjustTemperature_inv (P : Ext) (s : Engine)
    (h : momentumInvariant s) :
    momentumInvariant (adjustTemperature P s none false) := by
  obtain ⟨w1, w2, w3, w4, w5, w6, w7, w8, w9, w10, w11, w12⟩ :=
    windowStep_frame s (computeTemperature P s)
      ((none : Option ℚ).getD s.T_target)
  by_cases hc : (false = true ∨
      (windowStep s (computeTemperature P s)
        ((none : Option ℚ).getD s.T_target)).useThermostat = true ∨
      ((windowStep s (computeTemperature P s)
          ((none : Option ℚ).getD s.T_target)).temperatureChangeInProgress = true ∧
        0 < computeTemperature P s))
  · have hres : adjustTemperature P s none false =
        { scaleObstacleVelocities
            (scaleAtomVelocities
              (windowStep s (computeTemperature P s)
                ((none : Option ℚ).getD s.T_target))
              (P.jsSqrt ((none : Option ℚ).getD s.T_target / computeTemperature P s)))
            (P.jsSqrt ((none : Option ℚ).getD s.T_target / computeTemperature P s)) with
          T := (none : Option ℚ).getD s.T_target } := by
      unfold adjustTemperature
      rw [if_pos hc]
    rw [hres]
    intro i hi
    simp only [scaleObstacleVelocities, scaleAtomVelocities] at hi ⊢
    have hs : i < s.N := by rw [← w1] ; exact hi
    simp only [if_pos hi]
    rw [w2, w3, w4, w5, w6]
    obtain ⟨hx, hy⟩ := h i hs
    rw [hx, hy]
    exact ⟨by ring, by ring⟩
  · have hres : adjustTemperature P s none false =
        windowStep s (computeTemperature P s)
          ((none : Option ℚ).getD s.T_target) := by
      unfold adjustTemperature
      rw [if_neg hc]
    rw [hres]
    exact momentumInvariant_frame s _ w1 w4 w5 w2 w3 w6 h

/-- A successful Verlet step leaves the momentum invariant holding
unconditionally: the second half-kick recomputes the momenta and the
later substeps only rescale them in lockstep with the velocities. -/
theorem verletStep_inv (P : Ext) (t0 : ℚ) (s u : Engine)
    (h : verletStepAt P t0 s = Except.ok u) : momentumInvariant u := by
  unfold verletStepAt at h
  dsimp only at h
  cases hpp : updateParticlesPosition (halfUpdateVelocity { s with time := t0 }) with
  | error e =>
      rw [hpp] at h
      exact absurd h (by simp [Except.map])
  | ok s2 =>
      rw [hpp] at h
      simp only [Except.map] at h
      obtain rfl := Except.ok.inj h
      apply adjustTemperature_inv
      obtain ⟨a, b, c, d, e, f⟩ :=
        updateObstaclesPosition_momFrame
          (updateParticlesSpeed P
            (halfUpdateVelocity (pinAtoms (updateParticlesAccelerations P s2))))
      apply momentumInvariant_frame _ _ a b c d e f
      apply momentumInvariant_frame _ _ rfl rfl rfl rfl rfl rfl
        (halfUpdateVelocity_inv (pinAtoms (updateParticlesAccelerations P s2)))

theorem runVerletSteps_inv (P : Ext) (dtv : ℚ) :
    ∀ (n : ℕ) (tStart : ℚ) (s u : Engine),
      momentumInvariant s →
      runVerletSteps P tStart dtv n s = Except.ok u →
      momentumInvariant u := by
  intro n
  induction n with
  | zero =>
      intro tS s u h he
      exact (Except.ok.inj he) ▸ h
  | succ m ih =>
      intro tS s u h he
      rw [runVerletSteps_succ] at he
      cases hstep : verletStepAt P (tS + dtv) s with
      | error e =>
          rw [hstep] at he
          exact absurd he (by simp [Except.bind])
      | ok t =>
          rw [hstep] at he
          simp only [Except.bind] at he
          exact ih (tS + dtv) t u (verletStep_inv P (tS + dtv) s t hstep) he

/-- C2 (amended): the exact identities `px = mass*vx`, `py = mass*vy` for
every atom form an invariant of the three public mutating operations the
claim names — NOT of every public mutating operation
(`setElementProperties` breaks them, see the counterexample):
`setAtomProperties` re-establishes them at the touched atom and preserves
them elsewhere, `addAtom` likewise (the new atom's momenta are recomputed
from its just-set velocity and mass), and a completed `integrate` call
preserves them (each Verlet step ends with them holding, the second
half-kick having recomputed the momenta after the wall/obstacle collisions
and `pinAtoms` touched the velocities). -/
theorem C2_momentum_invariant (P : Ext) :
    (∀ (s : Engine) (i : ℕ) (props : AtomProps), momentumInvariant s →
      momentumInvariant (setAtomProperties P s i props)) ∧
    (∀ (s : Engine) (props : AtomProps), momentumInvariant s →
      momentumInvariant (addAtom P s props)) ∧
    (∀ (s u : Engine) (duration? dt? : Option ℚ), momentumInvariant s →
      integrate P s duration? dt? = Except.ok u → momentumInvariant u) := by
  refine ⟨fun s i props h => setAtomProperties_inv P s i props h,
    fun s props h => addAtom_inv P s props h, ?_⟩
  intro s u duration? dt? h hint
  unfold integrate at hint
  by_cases hcr : s.atomsHaveBeenCreated = false
  · rw [if_pos hcr] at hint
    exact absurd hint (by simp)
  · rw [if_neg hcr] at hint
    dsimp only at hint
    have hs2 : momentumInvariant
        (if s.time = 0 then
          updateParticlesAccelerations P
            { s with dt := dt?.getD 1, dt_sq := dt?.getD 1 * dt?.getD 1 }
        else { s with dt := dt?.getD 1, dt_sq := dt?.getD 1 * dt?.getD 1 }) := by
      split_ifs
      · exact momentumInvariant_frame s _ rfl rfl rfl rfl rfl rfl h
      · exact momentumInvariant_frame s _ rfl rfl rfl rfl rfl rfl h
    by_cases hneg : ⌊duration?.getD 100 / dt?.getD 1⌋ < 1
    · rw [integrateLoop_stop P s.time (dt?.getD 1)
        ⌊duration?.getD 100 / dt?.getD 1⌋ 1 _ hneg] at hint
      simp only [Except.map] at hint
      obtain rfl := Except.ok.inj hint
      exact momentumInvariant_frame _ _ rfl rfl rfl rfl rfl rfl hs2
    · rw [integrateLoop_eq P s.time (dt?.getD 1)
        ⌊duration?.getD 100 / dt?.getD 1⌋
        (⌊duration?.getD 100 / dt?.getD 1⌋).toNat 1 _ (by omega)] at hint
      cases hrun : runVerletSteps P (s.time + (((1 : ℤ) : ℚ) - 1) * dt?.getD 1)
          (dt?.getD 1) (⌊duration?.getD 100 / dt?.getD 1⌋).toNat
          (if s.time = 0 then
            updateParticlesAccelerations P
              { s with dt := dt?.getD 1, dt_sq := dt?.getD 1 * dt?.getD 1 }
          else { s with dt := dt?.getD 1, dt_sq := dt?.getD 1 * dt?.getD 1 }) with
      | error e =>
          rw [hrun] at hint
          exact absurd hint (by simp [Except.map])
      | ok w =>
          rw [hrun] at hint
          simp only [Except.map] at hint
          obtain rfl := Except.ok.inj hint
          exact momentumInvariant_frame _ _ rfl rfl rfl rfl rfl rfl
            (runVerletSteps_inv P (dt?.getD 1) _ _ _ w hs2 hrun)

end MD2D
